import Mathlib

/-!
Verification of the cart-to-order pipeline of the Shop_back e-commerce
backend (Express + Mongoose).  The JavaScript sources are shallowly
embedded: mongoose documents become Lean structures, monetary values are
rationals, stock counters are integers (the code mutates them in memory
before `save()` re-validates the schema `min: 0` constraint), and the
request handlers become pure functions from a store state to a
response/state pair.  Each handler is translated line by line from
`src/routes/cart.js`, `src/routes/orders.js`, `models/Cart.js`
(`src/unnamed/part_004`), `models/Order.js` (`part_005`) and
`models/Product.js` (`part_006`).
-/

namespace Shop

/-- One entry of `productSchema.sizes` (part_006 lines 75-90):
`{size, available (default true), stock (Number, min 0, default 0)}`.
The stock is an `Int` because route code performs `stock -= quantity`
in memory before `save()`; the schema `min: [0, ...]` validator is
modelled at save time. -/
structure SizeStock where
  size : String
  available : Bool
  stock : Int
deriving Repr, DecidableEq

/-- A Product document (part_006).  Only the fields the cart/order
pipeline reads are kept.  `stock` models the *general* stock path read
by the routes as `product.stock` (orders.js 172/205, cart.js 167/206):
the schema declares no such path, so on documents created through the
schema it is `none` (JavaScript `undefined`); it is kept as an
`Option Int` so that theorems can speak about it. -/
structure Product where
  name : String
  isActive : Bool
  price : ℚ
  originalPrice : Option ℚ
  discount : ℚ
  sizes : List SizeStock
  stock : Option Int
deriving Repr, DecidableEq

/-- One line of `cartSchema.items` (part_004 lines 9-40). -/
structure CartItem where
  product : Nat
  quantity : Nat
  size : String
  color : String
  price : ℚ
  originalPrice : ℚ
  discount : ℚ
deriving Repr, DecidableEq

/-- `cartSchema.coupon` (part_004 lines 66-75).  After
`this.coupon = {}` the object has no `code`/`discount` value, which is
modelled with `none`; `ctype` is the `type` path (default
`"percentage"`). -/
structure Coupon where
  code : Option String
  discount : Option ℚ
  ctype : String
deriving Repr, DecidableEq

/-- The empty coupon object `{}` (mongoose fills the `type` default). -/
def emptyCoupon : Coupon := { code := none, discount := none, ctype := "percentage" }

/-- A Cart document (part_004): line items plus the stored aggregates. -/
structure Cart where
  items : List CartItem
  subtotal : ℚ
  tax : ℚ
  shipping : ℚ
  discount : ℚ
  total : ℚ
  coupon : Coupon
deriving Repr, DecidableEq

/-- JavaScript truthiness of `this.coupon && this.coupon.discount`
(part_004 line 162): the coupon object itself is always truthy, so the
test reduces to `coupon.discount` being present and non-zero. -/
def couponActive (c : Coupon) : Bool :=
  match c.discount with
  | none => false
  | some d => d ≠ 0

/-- `subtotal = this.items.reduce((t, i) => t + i.price * i.quantity, 0)`
(part_004 lines 155-158). -/
def itemsSubtotal (items : List CartItem) : ℚ :=
  items.foldl (fun t i => t + i.price * (i.quantity : ℚ)) 0

/-- `cartSchema.methods.calculateTotals` (part_004 lines 154-181).
Note that `this.discount` is assigned *only* inside the
`if (this.coupon && this.coupon.discount)` branch: with no active
coupon the previously stored discount is left untouched.
Rationals: `0.085 = 17/200`, `5.99 = 599/100`. -/
def calculateTotals (c : Cart) : Cart :=
  let subtotal := itemsSubtotal c.items
  let discount :=
    if couponActive c.coupon then
      let amount :=
        if c.coupon.ctype = "percentage" then
          subtotal * c.coupon.discount.getD 0 / 100
        else
          c.coupon.discount.getD 0
      min amount subtotal
    else c.discount
  let shipping : ℚ := if subtotal ≥ 50 then 0 else 599 / 100
  let tax := (subtotal - discount) * (17 / 200)
  { c with
    subtotal := subtotal
    discount := discount
    shipping := shipping
    tax := tax
    total := subtotal + tax + shipping - discount }

/-- `cartSchema.methods.addItem` (part_004 lines 94-116): merge into the
first line with the same (product, size, color) key, else push a new
line (with `originalPrice := price`, `discount` defaulting to 0); then
`calculateTotals`. -/
def bumpFirstItem (pid : Nat) (q : Nat) (sz col : String) :
    List CartItem → Option (List CartItem)
  | [] => none
  | i :: rest =>
    if i.product == pid && i.size == sz && i.color == col then
      some ({ i with quantity := i.quantity + q } :: rest)
    else
      (bumpFirstItem pid q sz col rest).map (i :: ·)

def addItem (c : Cart) (pid : Nat) (q : Nat) (sz col : String) (price : ℚ) : Cart :=
  match bumpFirstItem pid q sz col c.items with
  | some items => calculateTotals { c with items := items }
  | none =>
      calculateTotals
        { c with
          items := c.items ++
            [{ product := pid, quantity := q, size := sz, color := col,
               price := price, originalPrice := price, discount := 0 }] }

/-- `cartSchema.methods.updateItemQuantity` (part_004 lines 119-131),
with the item addressed by its list position: a quantity ≤ 0 removes
the line, otherwise the quantity is replaced; an unknown item rejects
(`Promise.reject`).  Ends in `calculateTotals`. -/
def updateItemQuantity (c : Cart) (idx : Nat) (q : Int) : Option Cart :=
  match c.items[idx]? with
  | none => none
  | some item =>
      if q ≤ 0 then
        some (calculateTotals { c with items := c.items.eraseIdx idx })
      else
        some (calculateTotals
          { c with items := c.items.set idx { item with quantity := q.toNat } })

/-- `cartSchema.methods.removeItem` (part_004 lines 134-138). -/
def removeItem (c : Cart) (idx : Nat) : Cart :=
  calculateTotals { c with items := c.items.eraseIdx idx }

/-- `cartSchema.methods.clearCart` (part_004 lines 141-151): empties the
items, zeroes every aggregate and drops the coupon, without recomputing
totals. -/
def clearCart (c : Cart) : Cart :=
  { c with
    items := [], subtotal := 0, tax := 0, shipping := 0,
    discount := 0, total := 0, coupon := emptyCoupon }

/-- `DELETE /api/cart` (cart.js 507-549): `cart.items = []` followed by
`calculateTotals()`. -/
def clearCartRoute (c : Cart) : Cart :=
  calculateTotals { c with items := [] }

/-- `cartSchema.methods.applyCoupon` (part_004 lines 184-192). -/
def applyCoupon (c : Cart) (code : String) (d : ℚ) (ctype : String) : Cart :=
  calculateTotals
    { c with coupon := { code := some code, discount := some d, ctype := ctype } }

/-- `cartSchema.methods.removeCoupon` (part_004 lines 195-198):
`this.coupon = {}` then `calculateTotals`. -/
def removeCoupon (c : Cart) : Cart :=
  calculateTotals { c with coupon := emptyCoupon }

/-- The cart mutations named by the spec, each ending in a totals
recomputation as in the source (`clear` is the `DELETE /api/cart` route
sequence, the only clear that is followed by `calculateTotals`). -/
inductive CartMutation where
  | add (pid : Nat) (q : Nat) (sz col : String) (price : ℚ)
  | updateQty (idx : Nat) (q : Int)
  | remove (idx : Nat)
  | clear
  | coupon (code : String) (d : ℚ) (ctype : String)
  | uncoupon

def applyMutation : CartMutation → Cart → Option Cart
  | .add pid q sz col price, c => some (addItem c pid q sz col price)
  | .updateQty idx q, c => updateItemQuantity c idx q
  | .remove idx, c => some (removeItem c idx)
  | .clear, c => some (clearCartRoute c)
  | .coupon code d t, c => some (applyCoupon c code d t)
  | .uncoupon, c => some (removeCoupon c)

/-- The four aggregate equations claimed for the stored totals. -/
def CartInv (c : Cart) : Prop :=
  c.subtotal = itemsSubtotal c.items ∧
  c.shipping = (if c.subtotal ≥ 50 then (0 : ℚ) else 599 / 100) ∧
  c.tax = (c.subtotal - c.discount) * (17 / 200) ∧
  c.total = c.subtotal + c.tax + c.shipping - c.discount

theorem calculateTotals_inv (c : Cart) : CartInv (calculateTotals c) := by
  unfold CartInv calculateTotals
  refine ⟨rfl, rfl, rfl, rfl⟩

/-! ### The product collection

Mongoose stores documents in a collection keyed by the unique `_id`;
`Product.findById` is lookup and `product.save()` writes back under the
same key.  The collection is modelled as a map from ids to documents. -/

def ProdMap : Type := Nat → Option Product

/-- Persist an updated document under its id (`product.save()`). -/
def saveProd (ps : ProdMap) (pid : Nat) (p : Product) : ProdMap :=
  fun k => if k = pid then some p else ps k

/-- The stock counter of the first `sizes` entry named `sz` (the slot
`sizes.find(s => s.size === sz)` resolves to). -/
def sizesStock (sz : String) (l : List SizeStock) : Option Int :=
  (l.find? (fun s => s.size == sz)).map (·.stock)

/-- The availability flag of the same slot. -/
def sizesAvail (sz : String) (l : List SizeStock) : Option Bool :=
  (l.find? (fun s => s.size == sz)).map (·.available)

def stockOf (ps : ProdMap) (pid : Nat) (sz : String) : Option Int :=
  match ps pid with
  | none => none
  | some p => sizesStock sz p.sizes

def availOf (ps : ProdMap) (pid : Nat) (sz : String) : Option Bool :=
  match ps pid with
  | none => none
  | some p => sizesAvail sz p.sizes

/-- Outcome of mutating the first matching size slot of a `sizes` array
and saving the document: the index search can miss
(`findIndex === -1`), the `save()` can be rejected by the schema
`min: [0, ...]` stock validator, or the updated array is persisted. -/
inductive SizeUpd where
  | notFound
  | saveFail
  | updated (l : List SizeStock)
deriving Repr, DecidableEq

/-- The checkout stock-update step on a `sizes` array (orders.js
310-317): find the first slot whose `size` matches, subtract the
quantity, set `available = false` when the new stock is exactly 0, and
save — the save is rejected when the new stock is negative. -/
def decSizes (sz : String) (q : Nat) : List SizeStock → SizeUpd
  | [] => .notFound
  | s :: rest =>
    if s.size == sz then
      let ns : Int := s.stock - (q : Int)
      if ns < 0 then .saveFail
      else .updated
        ({ s with stock := ns, available := if ns = 0 then false else s.available } :: rest)
    else
      match decSizes sz q rest with
      | .notFound => .notFound
      | .saveFail => .saveFail
      | .updated l => .updated (s :: l)

/-- The cancellation stock-restore step on a `sizes` array (orders.js
486-492): add the quantity back to the first matching slot and set
`available = true` when the resulting stock is positive. -/
def incSizes (sz : String) (q : Nat) : List SizeStock → SizeUpd
  | [] => .notFound
  | s :: rest =>
    if s.size == sz then
      let ns : Int := s.stock + (q : Int)
      if ns < 0 then .saveFail
      else .updated
        ({ s with stock := ns, available := if ns > 0 then true else s.available } :: rest)
    else
      match incSizes sz q rest with
      | .notFound => .notFound
      | .saveFail => .saveFail
      | .updated l => .updated (s :: l)

/-! ### Order documents -/

/-- One line of `orderSchema.items` (part_005 lines 13-41). -/
structure OrderItem where
  product : Nat
  quantity : Nat
  size : String
  color : String
  price : ℚ
deriving Repr, DecidableEq

/-- One `orderSchema.timeline` entry (part_005 lines 168-178). -/
structure TimelineEntry where
  status : String
  note : String
deriving Repr, DecidableEq

/-- An Order document (part_005), restricted to the fields the pipeline
writes.  `orderNumber` is required by the schema (part_005 lines 9-12)
but the route never supplies it — the generating `pre('save')` hook
(lines 211-221) runs only after mongoose's built-in validate-before-save
step, so it is `none` at validation time.  `shipping` holds the numeric
value `POST /api/orders` copies from the cart for the `shipping` key;
the schema literal defines that key twice (a Number at lines 53-58,
then a nested object at lines 153-163 which overrides it), so setting a
truthy number on it raises an ObjectExpectedError inside
`Order.create`. -/
structure Order where
  orderNumber : Option String
  items : List OrderItem
  subtotal : ℚ
  tax : ℚ
  shipping : ℚ
  discount : ℚ
  total : ℚ
  status : String
  paymentMethod : String
  timeline : List TimelineEntry
deriving Repr, DecidableEq

/-- `orderSchema.methods.updateStatus` (part_005 lines 229-236):
overwrite the status and append one timeline entry, unconditionally. -/
def updateStatus (o : Order) (newStatus note : String) : Order :=
  { o with status := newStatus, timeline := o.timeline ++ [⟨newStatus, note⟩] }

/-! ### The POST /api/orders handler (orders.js 48-381) -/

/-- The shipping address of the request body; each field is validated
with `.trim().isLength({min: 1})` (orders.js 52-75). -/
structure Address where
  firstName : String
  lastName : String
  street : String
  city : String
  state : String
  zipCode : String
deriving Repr, DecidableEq

/-- `.trim().isLength({min: 1})`: the trimmed string is non-empty,
i.e. the string holds at least one non-whitespace character. -/
def nonBlank (s : String) : Bool := s.data.any (fun c => !c.isWhitespace)

def addrValid (a : Address) : Bool :=
  nonBlank a.firstName && nonBlank a.lastName && nonBlank a.street &&
  nonBlank a.city && nonBlank a.state && nonBlank a.zipCode

/-- The `paymentMethod` values the request validator accepts
(orders.js 76-78). -/
def requestPaymentMethods : List String :=
  ["credit_card", "debit_card", "paypal", "stripe", "apple_pay",
   "google_pay", "bkash", "nagad", "rocket"]

/-- The payment methods requiring mobileNumber/transactionNumber
(orders.js 79-86). -/
def mobileBankingMethods : List String := ["bkash", "nagad", "rocket"]

/-- The `paymentMethod` enum of the Order schema (part_005 lines
79-83); `Order.create` rejects any other value. -/
def orderPaymentEnum : List String :=
  ["credit_card", "debit_card", "paypal", "stripe", "apple_pay", "google_pay"]

/-- The POST /api/orders request body (mobileNumber/transactionNumber
are `""` when absent). -/
structure OrderRequest where
  shippingAddress : Address
  paymentMethod : String
  mobileNumber : String
  transactionNumber : String
deriving Repr, DecidableEq

/-- The express-validator chain of orders.js 48-91. -/
def reqValid (r : OrderRequest) : Bool :=
  addrValid r.shippingAddress &&
  requestPaymentMethods.contains r.paymentMethod &&
  (!(mobileBankingMethods.contains r.paymentMethod) ||
    (r.mobileNumber ≠ "" && r.transactionNumber ≠ ""))

/-- JavaScript `product.stock < item.quantity` (orders.js 205, cart.js
206/392): when the path is `undefined` the comparison is false. -/
def jsLtStock (st : Option Int) (q : Nat) : Bool :=
  match st with
  | none => false
  | some v => v < (q : Int)

/-- JavaScript `product.stock || 999` (orders.js 172, cart.js 167/360):
`undefined` and `0` are both falsy. -/
def jsOr999 (st : Option Int) : Int :=
  match st with
  | none => 999
  | some v => if v = 0 then 999 else v

/-- A failure found while re-validating one cart line (orders.js
146-225): a 400 business error with the route's message, or the 500
path (a cart line whose product document no longer exists makes
`item.product.isActive` throw). -/
inductive VErr where
  | bad (msg : String)
  | server
deriving Repr, DecidableEq

def validateItem (ps : ProdMap) (it : CartItem) : Option VErr :=
  match ps it.product with
  | none => some .server
  | some p =>
    if !p.isActive then
      some (.bad ("Product " ++ p.name ++ " is no longer available"))
    else if p.sizes.isEmpty then
      if jsLtStock p.stock it.quantity then
        some (.bad ("Insufficient stock for " ++ p.name))
      else none
    else
      match p.sizes.find? (fun s => s.size == it.size) with
      | none =>
          some (.bad ("Size " ++ it.size ++ " not available for " ++ p.name))
      | some si =>
          if si.stock < (it.quantity : Int) then
            some (.bad ("Insufficient stock for " ++ p.name ++ " in size " ++ it.size))
          else none

/-- The `for (const item of cart.items)` validation loop: the first
failing line aborts the request. -/
def validateItems (ps : ProdMap) : List CartItem → Option VErr
  | [] => none
  | it :: rest =>
    match validateItem ps it with
    | some e => some e
    | none => validateItems ps rest

/-- The order document built by `Order.create` (orders.js 234-290):
cart lines are snapshotted and the cart aggregates copied verbatim;
`status` defaults to `pending` and the timeline starts empty.  The
route passes no `orderNumber` (orders.js 275-290): the `pre('save')`
hook that would generate one runs only after validation, so the
document carries `none` when the required check runs. -/
def mkOrder (c : Cart) (r : OrderRequest) : Order :=
  { orderNumber := none,
    items := c.items.map (fun it =>
      { product := it.product, quantity := it.quantity, size := it.size,
        color := it.color, price := it.price }),
    subtotal := c.subtotal, tax := c.tax, shipping := c.shipping,
    discount := c.discount, total := c.total,
    status := "pending", paymentMethod := r.paymentMethod, timeline := [] }

/-- The checks `Order.create` runs before a document can persist.
`orderNumber` is required (part_005 9-12) yet the document carries none
— the generating `pre('save')` hook (part_005 211-221) runs only after
mongoose's built-in validate-before-save step, so this check fails on
every document the route builds.  The duplicated `shipping` key makes
`shipping` a nested-object path (part_005 153-163 overriding 53-58)
that raises an ObjectExpectedError for any truthy numeric value, so
only a falsy `0` passes.  The remaining checks are the `paymentMethod`
enum (part_005 79-83), the `min: 0` constraints on the monetary
aggregates (part_005 42-68), and `quantity ≥ 1` plus the required
`size`/`color` strings on every item (part_005 19-31).  Any failure is
caught by the handler's catch block and answered with a 500. -/
def orderCreateValid (o : Order) : Bool :=
  o.orderNumber.isSome &&
  decide (o.shipping = 0) &&
  orderPaymentEnum.contains o.paymentMethod &&
  decide (0 ≤ o.subtotal) && decide (0 ≤ o.tax) && decide (0 ≤ o.discount) &&
  decide (0 ≤ o.total) &&
  o.items.all (fun it => decide (1 ≤ it.quantity) && it.size ≠ "" && it.color ≠ "")

/-- One iteration of the stock-update loop (orders.js 301-328): fetch
the product, `findIndex` its size slot, decrement / flip availability /
save when found, silently skip the line when the slot (or, for
free-size products, any slot at all) is missing.  `none` is the path
where `save()` throws and the handler falls into its catch block. -/
def decItemStep (ps : ProdMap) (it : CartItem) : Option ProdMap :=
  match ps it.product with
  | none => none
  | some p =>
    match decSizes it.size it.quantity p.sizes with
    | .notFound => some ps
    | .saveFail => none
    | .updated l => some (saveProd ps it.product { p with sizes := l })

/-- The whole stock-update loop; on a failed save the documents already
saved stay persisted and the flag is `false` (the 500 path). -/
def decLoop (ps : ProdMap) : List CartItem → ProdMap × Bool
  | [] => (ps, true)
  | it :: rest =>
    match decItemStep ps it with
    | none => (ps, false)
    | some ps1 => decLoop ps1 rest

/-- One iteration of the cancellation restore loop (orders.js 483-495):
a deleted product (`if (product)`) or a missing size slot
(`sizeIndex !== -1`) is skipped. -/
def incItemStep (ps : ProdMap) (it : OrderItem) : ProdMap × Bool :=
  match ps it.product with
  | none => (ps, true)
  | some p =>
    match incSizes it.size it.quantity p.sizes with
    | .notFound => (ps, true)
    | .saveFail => (ps, false)
    | .updated l => (saveProd ps it.product { p with sizes := l }, true)

def incLoop (ps : ProdMap) : List OrderItem → ProdMap × Bool
  | [] => (ps, true)
  | it :: rest =>
    match incItemStep ps it with
    | (ps1, true) => incLoop ps1 rest
    | (ps1, false) => (ps1, false)

/-- The persistent state the order routes read and write: the product
collection, the order collection (append-ordered) and the
authenticated user's cart. -/
structure Store where
  products : ProdMap
  orders : List Order
  cart : Cart

inductive CheckoutResult where
  | created (o : Order)
  | badRequest (msg : String)
  | serverError
deriving Repr, DecidableEq

def CheckoutResult.isCreated : CheckoutResult → Bool
  | .created _ => true
  | _ => false

def CheckoutResult.isBadRequest : CheckoutResult → Bool
  | .badRequest _ => true
  | _ => false

def CheckoutResult.getOrder : CheckoutResult → Option Order
  | .created o => some o
  | _ => none

/-- `POST /api/orders` (orders.js 48-381): request validation, cart
lookup, per-line re-validation (fail-fast, no side effects),
`Order.create`, the stock-update loop, `clearCart()`, 201.  A mongoose
validation failure in `Order.create` or in a loop `save()` is caught by
the handler's catch block (500); in the first case nothing was
persisted, in the second the order and the already-saved stock changes
remain and the cart is kept.  The success branch mirrors the handler's
code shape (orders.js 275-368) but is unreachable: `orderCreateValid`
rejects every document `mkOrder` builds, because the required
`orderNumber` is only generated after validation, so every request that
passes the re-validation loop ends in the catch block. -/
def checkout (st : Store) (r : OrderRequest) : CheckoutResult × Store :=
  if !reqValid r then
    (.badRequest "Validation failed", st)
  else if st.cart.items.isEmpty then
    (.badRequest "Cart is empty", st)
  else
    match validateItems st.products st.cart.items with
    | some (.bad m) => (.badRequest m, st)
    | some .server => (.serverError, st)
    | none =>
      let o := mkOrder st.cart r
      if !orderCreateValid o then
        (.serverError, st)
      else
        let st1 : Store := { st with orders := st.orders ++ [o] }
        match decLoop st1.products st.cart.items with
        | (ps, false) => (.serverError, { st1 with products := ps })
        | (ps, true) =>
            (.created o, { st1 with products := ps, cart := clearCart st.cart })

inductive CancelResult where
  | ok
  | notFound
  | badRequest
  | serverError
deriving Repr, DecidableEq

/-- `PUT /api/orders/:id/cancel` (orders.js 459-513): only `pending` or
`confirmed` orders may be cancelled; `updateStatus('cancelled',
'Cancelled by customer')` is persisted first, then the restore loop
runs over the order lines. -/
def cancelOrder (st : Store) (idx : Nat) : CancelResult × Store :=
  match st.orders[idx]? with
  | none => (.notFound, st)
  | some o =>
    if o.status = "pending" ∨ o.status = "confirmed" then
      let o' := updateStatus o "cancelled" "Cancelled by customer"
      let st1 : Store := { st with orders := st.orders.set idx o' }
      match incLoop st1.products o.items with
      | (ps, true) => (.ok, { st1 with products := ps })
      | (ps, false) => (.serverError, { st1 with products := ps })
    else
      (.badRequest, st)

/-- The stock-relevant operations of the order API. -/
inductive ShopOp where
  | checkoutOp (r : OrderRequest)
  | cancelOp (idx : Nat)

def applyOp (st : Store) : ShopOp → Store
  | .checkoutOp r => (checkout st r).2
  | .cancelOp idx => (cancelOrder st idx).2

def applyOps (st : Store) (ops : List ShopOp) : Store :=
  ops.foldl applyOp st

/-- Every per-size stock counter of every product is non-negative. -/
def stocksNonneg (ps : ProdMap) : Prop :=
  ∀ pid p, ps pid = some p → ∀ s ∈ p.sizes, 0 ≤ s.stock

/-- Every general `stock` value that is present is non-negative. -/
def genStockNonneg (ps : ProdMap) : Prop :=
  ∀ pid p, ps pid = some p → ∀ v, p.stock = some v → 0 ≤ v

/-! ### The POST /api/cart/items handler (cart.js 96-291) -/

inductive AddResult where
  | ok (c : Cart)
  | badRequest (msg : String)
  | notFound (msg : String)
deriving Repr, DecidableEq

def AddResult.getCart : AddResult → Option Cart
  | .ok c => some c
  | _ => none

/-- `POST /api/cart/items`: validator (`quantity` 1..10, optional
non-empty `size`/`color`), product lookup, active check, size/stock
resolution (`size || 'Free Size'`, `color || 'Default'`), and the
merge-into-existing-line branch that re-checks the *merged* quantity
against the slot's stock and reports the remaining headroom
`sizeInfo.stock - existingQuantity` (cart.js 227-261). -/
def addItemRoute (ps : ProdMap) (c : Cart) (productId : Nat) (quantity : Nat)
    (size? : Option String) (color? : Option String) : AddResult :=
  if !(1 ≤ quantity && quantity ≤ 10 && size? ≠ some "" && color? ≠ some "") then
    .badRequest "Validation failed"
  else
    match ps productId with
    | none => .notFound "Product not found"
    | some p =>
      if !p.isActive then .badRequest "Product is not available"
      else
        let selectedSize := size?.getD "Free Size"
        let color := color?.getD "Default"
        let sized := !p.sizes.isEmpty
        match p.sizes.find? (fun s => s.size == selectedSize), sized with
        | none, true =>
            .badRequest ("Size " ++ selectedSize ++ " is not available for this product")
        | found, _ =>
          let stockVal : Int :=
            match found, sized with
            | some si, true => si.stock
            | _, _ => jsOr999 p.stock
          let availOk : Bool :=
            match found, sized with
            | some si, true => si.available
            | _, _ => true
          if sized && !availOk then
            .badRequest ("Size " ++ selectedSize ++ " is currently unavailable")
          else if sized && decide (stockVal < (quantity : Int)) then
            .badRequest ("Only " ++ toString stockVal ++
              " items available in size " ++ selectedSize)
          else if !sized && jsLtStock p.stock quantity then
            .badRequest ("Only " ++ toString (jsOr999 p.stock) ++ " items available")
          else
            match c.items.find? (fun it =>
                it.product == productId && it.size == selectedSize && it.color == color) with
            | some existing =>
              if (existing.quantity + quantity : Int) > stockVal then
                .badRequest ("Cannot add " ++ toString quantity ++
                  " more items. Only " ++ toString (stockVal - (existing.quantity : Int)) ++
                  " more available in size " ++ selectedSize)
              else
                match bumpFirstItem productId quantity selectedSize color c.items with
                | some items => .ok (calculateTotals { c with items := items })
                | none => .ok (calculateTotals c)
            | none =>
              .ok (calculateTotals
                { c with items := c.items ++
                    [{ product := productId, quantity := quantity,
                       size := selectedSize, color := color, price := p.price,
                       originalPrice := p.originalPrice.getD p.price, discount := 0 }] })

/-! ### The GET /api/cart/summary handler (cart.js 554-596) -/

structure CartSummary where
  itemCount : Nat
  totalItems : Nat
  subtotal : ℚ
  total : ℚ
deriving Repr, DecidableEq

/-- `GET /api/cart/summary`: both `subtotal` and `total` are
`items.reduce((sum, item) => sum + item.price * item.quantity, 0)`;
tax, shipping and the coupon discount are never consulted.  An empty
(or missing) cart returns all zeroes. -/
def cartSummary (c : Cart) : CartSummary :=
  if c.items.isEmpty then
    { itemCount := 0, totalItems := 0, subtotal := 0, total := 0 }
  else
    { itemCount := c.items.length,
      totalItems := c.items.foldl (fun t i => t + i.quantity) 0,
      subtotal := c.items.foldl (fun t i => t + i.price * (i.quantity : ℚ)) 0,
      total := c.items.foldl (fun t i => t + i.price * (i.quantity : ℚ)) 0 }

/-! ### Stock accounting over a checkout / cancellation

The net quantity an item list adds to (or removes from) the counter of
one (product, size) pair. -/

def cartDelta : List CartItem → Nat → String → Int
  | [], _, _ => 0
  | it :: rest, pid, sz =>
    (if it.product = pid ∧ it.size = sz then (it.quantity : Int) else 0) +
      cartDelta rest pid sz

def orderDelta : List OrderItem → Nat → String → Int
  | [], _, _ => 0
  | it :: rest, pid, sz =>
    (if it.product = pid ∧ it.size = sz then (it.quantity : Int) else 0) +
      orderDelta rest pid sz

theorem orderDelta_mkOrder (items : List CartItem) (pid : Nat) (sz : String) :
    orderDelta (items.map (fun it =>
      ({ product := it.product, quantity := it.quantity, size := it.size,
         color := it.color, price := it.price } : OrderItem))) pid sz =
    cartDelta items pid sz := by
  induction items with
  | nil => rfl
  | cons it rest ih => simp [orderDelta, cartDelta, ih]

/-! Lemmas about `decSizes` / `incSizes` on one `sizes` array. -/

theorem sizesStock_cons_pos {s : SizeStock} {sz : String} {rest : List SizeStock}
    (h : (s.size == sz) = true) : sizesStock sz (s :: rest) = some s.stock := by
  unfold sizesStock
  rw [@List.find?_cons_of_pos _ (fun t => t.size == sz) s rest h]
  rfl

theorem sizesStock_cons_neg {s : SizeStock} {sz : String} {rest : List SizeStock}
    (h : (s.size == sz) = false) : sizesStock sz (s :: rest) = sizesStock sz rest := by
  unfold sizesStock
  rw [@List.find?_cons_of_neg _ (fun t => t.size == sz) s rest (by simp [h])]

theorem sizesAvail_cons_pos {s : SizeStock} {sz : String} {rest : List SizeStock}
    (h : (s.size == sz) = true) : sizesAvail sz (s :: rest) = some s.available := by
  unfold sizesAvail
  rw [@List.find?_cons_of_pos _ (fun t => t.size == sz) s rest h]
  rfl

theorem sizesAvail_cons_neg {s : SizeStock} {sz : String} {rest : List SizeStock}
    (h : (s.size == sz) = false) : sizesAvail sz (s :: rest) = sizesAvail sz rest := by
  unfold sizesAvail
  rw [@List.find?_cons_of_neg _ (fun t => t.size == sz) s rest (by simp [h])]

theorem decSizes_notFound {sz : String} {q : Nat} {l : List SizeStock}
    (h : decSizes sz q l = .notFound) : sizesStock sz l = none := by
  induction l with
  | nil => simp [sizesStock]
  | cons s rest ih =>
    by_cases hs : (s.size == sz) = true
    · simp only [decSizes, hs, if_true] at h
      split at h <;> cases h
    · rw [Bool.not_eq_true] at hs
      simp only [decSizes, hs, Bool.false_eq_true, if_false] at h
      rw [sizesStock_cons_neg hs]
      cases hrec : decSizes sz q rest with
      | notFound => exact ih hrec
      | saveFail => rw [hrec] at h; cases h
      | updated l2 => rw [hrec] at h; cases h

theorem decSizes_saveFail {sz : String} {q : Nat} {l : List SizeStock}
    (h : decSizes sz q l = .saveFail) :
    ∃ v, sizesStock sz l = some v ∧ v < (q : Int) := by
  induction l with
  | nil => simp [decSizes] at h
  | cons s rest ih =>
    by_cases hs : (s.size == sz) = true
    · simp only [decSizes, hs, if_true] at h
      split at h
      · exact ⟨s.stock, sizesStock_cons_pos hs, by omega⟩
      · cases h
    · rw [Bool.not_eq_true] at hs
      simp only [decSizes, hs, Bool.false_eq_true, if_false] at h
      rw [sizesStock_cons_neg hs]
      cases hrec : decSizes sz q rest with
      | notFound => rw [hrec] at h; cases h
      | saveFail => exact ih hrec
      | updated l2 => rw [hrec] at h; cases h

theorem decSizes_updated {sz : String} {q : Nat} {l l' : List SizeStock}
    (h : decSizes sz q l = .updated l') :
    ∃ v, sizesStock sz l = some v ∧ (q : Int) ≤ v ∧
      sizesStock sz l' = some (v - q) ∧
      (∀ sz', (sz' == sz) = false → sizesStock sz' l' = sizesStock sz' l ∧
        sizesAvail sz' l' = sizesAvail sz' l) := by
  induction l generalizing l' with
  | nil => simp [decSizes] at h
  | cons s rest ih =>
    by_cases hs : (s.size == sz) = true
    · simp only [decSizes, hs, if_true] at h
      split at h
      · cases h
      · rename_i hneg
        cases h
        refine ⟨s.stock, sizesStock_cons_pos hs, by omega,
          by exact sizesStock_cons_pos hs, ?_⟩
        intro sz' hsz'
        have heq : s.size = sz := by simpa using hs
        have hb : (s.size == sz') = false := by
          rw [heq]
          rw [beq_eq_false_iff_ne] at hsz' ⊢
          exact fun hc => hsz' hc.symm
        refine ⟨?_, ?_⟩
        · unfold sizesStock
          rw [List.find?_cons_of_neg, List.find?_cons_of_neg] <;> simp [hb]
        · unfold sizesAvail
          rw [List.find?_cons_of_neg, List.find?_cons_of_neg] <;> simp [hb]
    · rw [Bool.not_eq_true] at hs
      simp only [decSizes, hs, Bool.false_eq_true, if_false] at h
      cases hrec : decSizes sz q rest with
      | notFound => rw [hrec] at h; cases h
      | saveFail => rw [hrec] at h; cases h
      | updated l2 =>
          rw [hrec] at h
          cases h
          obtain ⟨v, hv, hq, hv', hother⟩ := ih hrec
          refine ⟨v, by rw [sizesStock_cons_neg hs]; exact hv, hq,
            by rw [sizesStock_cons_neg hs]; exact hv', ?_⟩
          intro sz' hsz'
          by_cases hb : (s.size == sz') = true
          · exact ⟨by rw [sizesStock_cons_pos hb, sizesStock_cons_pos hb],
                   by rw [sizesAvail_cons_pos hb, sizesAvail_cons_pos hb]⟩
          · rw [Bool.not_eq_true] at hb
            obtain ⟨h1, h2⟩ := hother sz' hsz'
            exact ⟨by rw [sizesStock_cons_neg hb, sizesStock_cons_neg hb]; exact h1,
                   by rw [sizesAvail_cons_neg hb, sizesAvail_cons_neg hb]; exact h2⟩

theorem incSizes_notFound {sz : String} {q : Nat} {l : List SizeStock}
    (h : incSizes sz q l = .notFound) : sizesStock sz l = none := by
  induction l with
  | nil => simp [sizesStock]
  | cons s rest ih =>
    by_cases hs : (s.size == sz) = true
    · simp only [incSizes, hs, if_true] at h
      split at h <;> cases h
    · rw [Bool.not_eq_true] at hs
      simp only [incSizes, hs, Bool.false_eq_true, if_false] at h
      rw [sizesStock_cons_neg hs]
      cases hrec : incSizes sz q rest with
      | notFound => exact ih hrec
      | saveFail => rw [hrec] at h; cases h
      | updated l2 => rw [hrec] at h; cases h

theorem incSizes_saveFail {sz : String} {q : Nat} {l : List SizeStock}
    (h : incSizes sz q l = .saveFail) :
    ∃ v, sizesStock sz l = some v ∧ v + (q : Int) < 0 := by
  induction l with
  | nil => simp [incSizes] at h
  | cons s rest ih =>
    by_cases hs : (s.size == sz) = true
    · simp only [incSizes, hs, if_true] at h
      split at h
      · exact ⟨s.stock, sizesStock_cons_pos hs, by omega⟩
      · cases h
    · rw [Bool.not_eq_true] at hs
      simp only [incSizes, hs, Bool.false_eq_true, if_false] at h
      rw [sizesStock_cons_neg hs]
      cases hrec : incSizes sz q rest with
      | notFound => rw [hrec] at h; cases h
      | saveFail => exact ih hrec
      | updated l2 => rw [hrec] at h; cases h

theorem incSizes_updated {sz : String} {q : Nat} {l l' : List SizeStock}
    (h : incSizes sz q l = .updated l') :
    ∃ v, sizesStock sz l = some v ∧
      sizesStock sz l' = some (v + q) ∧
      (0 < v + (q : Int) → sizesAvail sz l' = some true) ∧
      (sizesAvail sz l = some true → sizesAvail sz l' = some true) ∧
      (∀ sz', (sz' == sz) = false → sizesStock sz' l' = sizesStock sz' l ∧
        sizesAvail sz' l' = sizesAvail sz' l) := by
  induction l generalizing l' with
  | nil => simp [incSizes] at h
  | cons s rest ih =>
    by_cases hs : (s.size == sz) = true
    · simp only [incSizes, hs, if_true] at h
      split at h
      · cases h
      · rename_i hneg
        cases h
        refine ⟨s.stock, sizesStock_cons_pos hs, by exact sizesStock_cons_pos hs,
          ?_, ?_, ?_⟩
        · intro hpos
          unfold sizesAvail
          rw [List.find?_cons_of_pos]
          · simp [hpos]
          · exact hs
        · intro hav
          rw [sizesAvail_cons_pos hs] at hav
          have hsa : s.available = true := by simpa using hav
          unfold sizesAvail
          rw [List.find?_cons_of_pos]
          · simp [hsa]
          · exact hs
        · intro sz' hsz'
          have heq : s.size = sz := by simpa using hs
          have hb : (s.size == sz') = false := by
            rw [heq]
            rw [beq_eq_false_iff_ne] at hsz' ⊢
            exact fun hc => hsz' hc.symm
          refine ⟨?_, ?_⟩
          · unfold sizesStock
            rw [List.find?_cons_of_neg, List.find?_cons_of_neg] <;> simp [hb]
          · unfold sizesAvail
            rw [List.find?_cons_of_neg, List.find?_cons_of_neg] <;> simp [hb]
    · rw [Bool.not_eq_true] at hs
      simp only [incSizes, hs, Bool.false_eq_true, if_false] at h
      cases hrec : incSizes sz q rest with
      | notFound => rw [hrec] at h; cases h
      | saveFail => rw [hrec] at h; cases h
      | updated l2 =>
          rw [hrec] at h
          cases h
          obtain ⟨v, hv, hv', hpos, hmono, hother⟩ := ih hrec
          refine ⟨v, by rw [sizesStock_cons_neg hs]; exact hv,
            by rw [sizesStock_cons_neg hs]; exact hv', ?_, ?_, ?_⟩
          · intro hp
            rw [sizesAvail_cons_neg hs]
            exact hpos hp
          · intro hav
            rw [sizesAvail_cons_neg hs] at hav ⊢
            exact hmono hav
          · intro sz' hsz'
            by_cases hb : (s.size == sz') = true
            · exact ⟨by rw [sizesStock_cons_pos hb, sizesStock_cons_pos hb],
                     by rw [sizesAvail_cons_pos hb, sizesAvail_cons_pos hb]⟩
            · rw [Bool.not_eq_true] at hb
              obtain ⟨h1, h2⟩ := hother sz' hsz'
              exact ⟨by rw [sizesStock_cons_neg hb, sizesStock_cons_neg hb]; exact h1,
                     by rw [sizesAvail_cons_neg hb, sizesAvail_cons_neg hb]; exact h2⟩

/-- A stored per-size stock value belongs to some slot of the array. -/
theorem sizesStock_mem {sz : String} {l : List SizeStock} {v : Int}
    (h : sizesStock sz l = some v) : ∃ x ∈ l, x.stock = v := by
  unfold sizesStock at h
  cases hf : l.find? (fun s => s.size == sz) with
  | none => rw [hf] at h; cases h
  | some x =>
      rw [hf] at h
      exact ⟨x, List.mem_of_find?_eq_some hf, by simpa using h⟩

theorem decSizes_updated_nonneg {sz : String} {q : Nat} {l l' : List SizeStock}
    (h : decSizes sz q l = .updated l') (hl : ∀ x ∈ l, 0 ≤ x.stock) :
    ∀ x ∈ l', 0 ≤ x.stock := by
  induction l generalizing l' with
  | nil => simp [decSizes] at h
  | cons s rest ih =>
    by_cases hs : (s.size == sz) = true
    · simp only [decSizes, hs, if_true] at h
      split at h
      · cases h
      · rename_i hneg
        cases h
        intro x hx
        rcases List.mem_cons.mp hx with hx | hx
        · subst hx; simpa using by omega
        · exact hl x (List.mem_cons_of_mem _ hx)
    · rw [Bool.not_eq_true] at hs
      simp only [decSizes, hs, Bool.false_eq_true, if_false] at h
      cases hrec : decSizes sz q rest with
      | notFound => rw [hrec] at h; cases h
      | saveFail => rw [hrec] at h; cases h
      | updated l2 =>
          rw [hrec] at h
          cases h
          intro x hx
          rcases List.mem_cons.mp hx with hx | hx
          · rw [hx]; exact hl s (List.mem_cons_self _ _)
          · exact ih hrec (fun y hy => hl y (List.mem_cons_of_mem _ hy)) x hx

theorem incSizes_updated_nonneg {sz : String} {q : Nat} {l l' : List SizeStock}
    (h : incSizes sz q l = .updated l') (hl : ∀ x ∈ l, 0 ≤ x.stock) :
    ∀ x ∈ l', 0 ≤ x.stock := by
  induction l generalizing l' with
  | nil => simp [incSizes] at h
  | cons s rest ih =>
    by_cases hs : (s.size == sz) = true
    · simp only [incSizes, hs, if_true] at h
      split at h
      · cases h
      · cases h
        intro x hx
        rcases List.mem_cons.mp hx with hx | hx
        · subst hx
          have := hl s (List.mem_cons_self _ _)
          simpa using by omega
        · exact hl x (List.mem_cons_of_mem _ hx)
    · rw [Bool.not_eq_true] at hs
      simp only [incSizes, hs, Bool.false_eq_true, if_false] at h
      cases hrec : incSizes sz q rest with
      | notFound => rw [hrec] at h; cases h
      | saveFail => rw [hrec] at h; cases h
      | updated l2 =>
          rw [hrec] at h
          cases h
          intro x hx
          rcases List.mem_cons.mp hx with hx | hx
          · rw [hx]; exact hl s (List.mem_cons_self _ _)
          · exact ih hrec (fun y hy => hl y (List.mem_cons_of_mem _ hy)) x hx

/-- Under non-negative stocks a restore `save()` never fails. -/
theorem incSizes_ne_saveFail {sz : String} {q : Nat} {l : List SizeStock}
    (hl : ∀ x ∈ l, 0 ≤ x.stock) : incSizes sz q l ≠ .saveFail := by
  intro h
  obtain ⟨v, hv, hvq⟩ := incSizes_saveFail h
  obtain ⟨x, hx, hxv⟩ := sizesStock_mem hv
  have := hl x hx
  omega

/-! ### Effect of one stock-update / restore step on the store -/

theorem saveProd_same {ps : ProdMap} {pid : Nat} {p : Product} :
    saveProd ps pid p pid = some p := by
  simp [saveProd]

theorem saveProd_other {ps : ProdMap} {pid k : Nat} {p : Product} (h : k ≠ pid) :
    saveProd ps pid p k = ps k := by
  simp [saveProd, h]


theorem decItemStep_stockOf {ps ps' : ProdMap} {it : CartItem}
    (h : decItemStep ps it = some ps') (pid : Nat) (sz : String) :
    stockOf ps' pid sz =
      if pid = it.product ∧ sz = it.size then
        (stockOf ps pid sz).map (· - (it.quantity : Int))
      else stockOf ps pid sz := by
  cases hp : ps it.product with
  | none => simp [decItemStep, hp] at h
  | some p =>
    cases hd : decSizes it.size it.quantity p.sizes with
    | notFound =>
        simp only [decItemStep, hp, hd, Option.some.injEq] at h
        subst h
        have hnone := decSizes_notFound hd
        split
        · rename_i hm
          obtain ⟨h1, h2⟩ := hm
          subst h1; subst h2
          simp [stockOf, hp, hnone]
        · rfl
    | saveFail => simp [decItemStep, hp, hd] at h
    | updated l' =>
        simp only [decItemStep, hp, hd, Option.some.injEq] at h
        subst h
        obtain ⟨v, hv, hq, hv', hother⟩ := decSizes_updated hd
        split
        · rename_i hm
          obtain ⟨h1, h2⟩ := hm
          subst h1; subst h2
          simp [stockOf, saveProd_same, hp, hv, hv']
        · rename_i hm
          by_cases h1 : pid = it.product
          · subst h1
            have h2 : ¬ sz = it.size := fun hc => hm ⟨rfl, hc⟩
            simp only [stockOf, saveProd_same, hp]
            exact (hother sz (by rw [beq_eq_false_iff_ne]; exact h2)).1
          · simp only [stockOf, saveProd_other h1]

theorem decItemStep_nonneg {ps ps' : ProdMap} {it : CartItem}
    (h : decItemStep ps it = some ps') (hnn : stocksNonneg ps) :
    stocksNonneg ps' := by
  cases hp : ps it.product with
  | none => simp [decItemStep, hp] at h
  | some p =>
    cases hd : decSizes it.size it.quantity p.sizes with
    | notFound =>
        simp only [decItemStep, hp, hd, Option.some.injEq] at h
        subst h
        exact hnn
    | saveFail => simp [decItemStep, hp, hd] at h
    | updated l' =>
        simp only [decItemStep, hp, hd, Option.some.injEq] at h
        subst h
        intro pid q hq
        by_cases h1 : pid = it.product
        · subst h1
          rw [saveProd_same] at hq
          cases hq
          exact decSizes_updated_nonneg hd (hnn _ _ hp)
        · rw [saveProd_other h1] at hq
          exact hnn _ _ hq

theorem decItemStep_genStock {ps ps' : ProdMap} {it : CartItem}
    (h : decItemStep ps it = some ps') (pid : Nat) :
    (ps' pid).map Product.stock = (ps pid).map Product.stock := by
  cases hp : ps it.product with
  | none => simp [decItemStep, hp] at h
  | some p =>
    cases hd : decSizes it.size it.quantity p.sizes with
    | notFound =>
        simp only [decItemStep, hp, hd, Option.some.injEq] at h
        subst h
        rfl
    | saveFail => simp [decItemStep, hp, hd] at h
    | updated l' =>
        simp only [decItemStep, hp, hd, Option.some.injEq] at h
        subst h
        by_cases h1 : pid = it.product
        · subst h1; rw [saveProd_same, hp]; rfl
        · rw [saveProd_other h1]

/-- A free-size product document is never touched by the stock-update
loop step. -/
theorem decItemStep_freeSize {ps ps' : ProdMap} {it : CartItem} {pid : Nat} {p : Product}
    (h : decItemStep ps it = some ps') (hp : ps pid = some p) (hfree : p.sizes = []) :
    ps' pid = some p := by
  cases hq : ps it.product with
  | none => simp [decItemStep, hq] at h
  | some q =>
    cases hd : decSizes it.size it.quantity q.sizes with
    | notFound =>
        simp only [decItemStep, hq, hd, Option.some.injEq] at h
        subst h
        exact hp
    | saveFail => simp [decItemStep, hq, hd] at h
    | updated l' =>
        simp only [decItemStep, hq, hd, Option.some.injEq] at h
        subst h
        by_cases h1 : pid = it.product
        · subst h1
          rw [hp] at hq
          cases hq
          rw [hfree] at hd
          simp [decSizes] at hd
        · rw [saveProd_other h1]; exact hp

theorem incItemStep_stockOf {ps ps' : ProdMap} {it : OrderItem}
    (h : incItemStep ps it = (ps', true)) (pid : Nat) (sz : String) :
    stockOf ps' pid sz =
      if pid = it.product ∧ sz = it.size then
        (stockOf ps pid sz).map (· + (it.quantity : Int))
      else stockOf ps pid sz := by
  cases hp : ps it.product with
  | none =>
      simp only [incItemStep, hp, Prod.mk.injEq] at h
      rw [← h.1]
      split
      · rename_i hm
        obtain ⟨h1, h2⟩ := hm
        subst h1; subst h2
        simp [stockOf, hp]
      · rfl
  | some p =>
    cases hd : incSizes it.size it.quantity p.sizes with
    | notFound =>
        simp only [incItemStep, hp, hd, Prod.mk.injEq] at h
        rw [← h.1]
        have hnone := incSizes_notFound hd
        split
        · rename_i hm
          obtain ⟨h1, h2⟩ := hm
          subst h1; subst h2
          simp [stockOf, hp, hnone]
        · rfl
    | saveFail => simp [incItemStep, hp, hd] at h
    | updated l' =>
        simp only [incItemStep, hp, hd, Prod.mk.injEq] at h
        rw [← h.1]
        obtain ⟨v, hv, hv', hpos, hmono, hother⟩ := incSizes_updated hd
        split
        · rename_i hm
          obtain ⟨h1, h2⟩ := hm
          subst h1; subst h2
          simp [stockOf, saveProd_same, hp, hv, hv']
        · rename_i hm
          by_cases h1 : pid = it.product
          · subst h1
            have h2 : ¬ sz = it.size := fun hc => hm ⟨rfl, hc⟩
            simp only [stockOf, saveProd_same, hp]
            exact (hother sz (by rw [beq_eq_false_iff_ne]; exact h2)).1
          · simp only [stockOf, saveProd_other h1]

theorem incItemStep_nonneg {ps : ProdMap} {it : OrderItem}
    (hnn : stocksNonneg ps) : stocksNonneg (incItemStep ps it).1 := by
  cases hp : ps it.product with
  | none => simpa [incItemStep, hp] using hnn
  | some p =>
    cases hd : incSizes it.size it.quantity p.sizes with
    | notFound => simpa [incItemStep, hp, hd] using hnn
    | saveFail => simpa [incItemStep, hp, hd] using hnn
    | updated l' =>
        simp only [incItemStep, hp, hd]
        intro pid q hq
        by_cases h1 : pid = it.product
        · subst h1
          rw [saveProd_same] at hq
          cases hq
          exact incSizes_updated_nonneg hd (hnn _ _ hp)
        · rw [saveProd_other h1] at hq
          exact hnn _ _ hq

theorem incItemStep_success {ps : ProdMap} {it : OrderItem}
    (hnn : stocksNonneg ps) : (incItemStep ps it).2 = true := by
  cases hp : ps it.product with
  | none => simp [incItemStep, hp]
  | some p =>
    cases hd : incSizes it.size it.quantity p.sizes with
    | notFound => simp [incItemStep, hp, hd]
    | saveFail => exact absurd hd (incSizes_ne_saveFail (hnn _ _ hp))
    | updated l' => simp [incItemStep, hp, hd]

theorem incItemStep_genStock {ps : ProdMap} {it : OrderItem} (pid : Nat) :
    ((incItemStep ps it).1 pid).map Product.stock = (ps pid).map Product.stock := by
  cases hp : ps it.product with
  | none => simp [incItemStep, hp]
  | some p =>
    cases hd : incSizes it.size it.quantity p.sizes with
    | notFound => simp [incItemStep, hp, hd]
    | saveFail => simp [incItemStep, hp, hd]
    | updated l' =>
        simp only [incItemStep, hp, hd]
        by_cases h1 : pid = it.product
        · subst h1; rw [saveProd_same, hp]; rfl
        · rw [saveProd_other h1]

theorem incItemStep_avail_mono {ps : ProdMap} {it : OrderItem} {pid : Nat} {sz : String}
    (h : availOf ps pid sz = some true) :
    availOf (incItemStep ps it).1 pid sz = some true := by
  cases hp : ps it.product with
  | none => simpa [incItemStep, hp] using h
  | some p =>
    cases hd : incSizes it.size it.quantity p.sizes with
    | notFound => simpa [incItemStep, hp, hd] using h
    | saveFail => simpa [incItemStep, hp, hd] using h
    | updated l' =>
        simp only [incItemStep, hp, hd]
        obtain ⟨v, hv, hv', hpos, hmono, hother⟩ := incSizes_updated hd
        by_cases h1 : pid = it.product
        · subst h1
          simp only [availOf, hp] at h
          simp only [availOf, saveProd_same]
          by_cases h2 : sz = it.size
          · subst h2
            exact hmono h
          · rw [(hother sz (by rw [beq_eq_false_iff_ne]; exact h2)).2]
            exact h
        · simp only [availOf, saveProd_other h1]
          simp only [availOf] at h
          exact h

/-- A restore step on the matching line with an existing slot makes the
slot available as soon as its new stock is positive. -/
theorem incItemStep_avail_pos {ps : ProdMap} {it : OrderItem} {v : Int}
    (hv : stockOf ps it.product it.size = some v)
    (hpos : 0 < v + (it.quantity : Int)) (hnn : stocksNonneg ps) :
    availOf (incItemStep ps it).1 it.product it.size = some true := by
  cases hp : ps it.product with
  | none => simp [stockOf, hp] at hv
  | some p =>
    simp only [stockOf, hp] at hv
    cases hd : incSizes it.size it.quantity p.sizes with
    | notFound => rw [incSizes_notFound hd] at hv; cases hv
    | saveFail => exact absurd hd (incSizes_ne_saveFail (hnn _ _ hp))
    | updated l' =>
        simp only [incItemStep, hp, hd]
        obtain ⟨w, hw, hw', hpos', hmono, hother⟩ := incSizes_updated hd
        rw [hv] at hw
        cases hw
        simp only [availOf, saveProd_same]
        exact hpos' hpos

/-! ### Loop-level lemmas -/

theorem stockOf_nonneg {ps : ProdMap} {pid : Nat} {sz : String} {v : Int}
    (hnn : stocksNonneg ps) (h : stockOf ps pid sz = some v) : 0 ≤ v := by
  unfold stockOf at h
  cases hp : ps pid with
  | none => rw [hp] at h; cases h
  | some p =>
      rw [hp] at h
      obtain ⟨x, hx, hxv⟩ := sizesStock_mem h
      rw [← hxv]
      exact hnn _ _ hp x hx

theorem cartDelta_cons (it : CartItem) (rest : List CartItem) (pid : Nat) (sz : String) :
    cartDelta (it :: rest) pid sz =
      (if it.product = pid ∧ it.size = sz then (it.quantity : Int) else 0) +
        cartDelta rest pid sz := rfl

theorem orderDelta_cons (it : OrderItem) (rest : List OrderItem) (pid : Nat) (sz : String) :
    orderDelta (it :: rest) pid sz =
      (if it.product = pid ∧ it.size = sz then (it.quantity : Int) else 0) +
        orderDelta rest pid sz := rfl

theorem orderDelta_nonneg (its : List OrderItem) (pid : Nat) (sz : String) :
    0 ≤ orderDelta its pid sz := by
  induction its with
  | nil => simp [orderDelta]
  | cons it rest ih =>
      unfold orderDelta
      split <;> omega

theorem decLoop_nonneg {ps : ProdMap} {its : List CartItem}
    (hnn : stocksNonneg ps) : stocksNonneg (decLoop ps its).1 := by
  induction its generalizing ps with
  | nil => exact hnn
  | cons it rest ih =>
      cases hstep : decItemStep ps it with
      | none => simpa [decLoop, hstep] using hnn
      | some ps1 =>
          simp only [decLoop, hstep]
          exact ih (decItemStep_nonneg hstep hnn)

theorem decLoop_genStock {ps : ProdMap} {its : List CartItem} (pid : Nat) :
    ((decLoop ps its).1 pid).map Product.stock = (ps pid).map Product.stock := by
  induction its generalizing ps with
  | nil => rfl
  | cons it rest ih =>
      cases hstep : decItemStep ps it with
      | none => simp [decLoop, hstep]
      | some ps1 =>
          simp only [decLoop, hstep]
          rw [ih, decItemStep_genStock hstep]

theorem decLoop_freeSize {ps : ProdMap} {its : List CartItem} {pid : Nat} {p : Product}
    (hp : ps pid = some p) (hfree : p.sizes = []) :
    (decLoop ps its).1 pid = some p := by
  induction its generalizing ps with
  | nil => exact hp
  | cons it rest ih =>
      cases hstep : decItemStep ps it with
      | none => simpa [decLoop, hstep] using hp
      | some ps1 =>
          simp only [decLoop, hstep]
          exact ih (decItemStep_freeSize hstep hp hfree)

theorem decLoop_stockOf {ps ps' : ProdMap} {its : List CartItem}
    (h : decLoop ps its = (ps', true)) (pid : Nat) (sz : String) :
    stockOf ps' pid sz = (stockOf ps pid sz).map (· - cartDelta its pid sz) := by
  induction its generalizing ps with
  | nil =>
      simp only [decLoop, Prod.mk.injEq] at h
      rw [← h.1]
      cases hx : stockOf ps pid sz <;> simp [cartDelta, hx]
  | cons it rest ih =>
      cases hstep : decItemStep ps it with
      | none => simp [decLoop, hstep] at h
      | some ps1 =>
          simp only [decLoop, hstep] at h
          rw [ih h, decItemStep_stockOf hstep pid sz, cartDelta_cons]
          by_cases hm : pid = it.product ∧ sz = it.size
          · rw [if_pos hm, if_pos ⟨hm.1.symm, hm.2.symm⟩]
            cases hx : stockOf ps pid sz with
            | none => simp [hx]
            | some a => simp [hx, sub_sub]
          · rw [if_neg hm, if_neg (fun hc => hm ⟨hc.1.symm, hc.2.symm⟩), zero_add]

theorem incLoop_nonneg {ps : ProdMap} {its : List OrderItem}
    (hnn : stocksNonneg ps) : stocksNonneg (incLoop ps its).1 := by
  induction its generalizing ps with
  | nil => exact hnn
  | cons it rest ih =>
      cases hstep : incItemStep ps it with
      | mk ps1 b =>
          cases b
          · simp only [incLoop, hstep]
            have := @incItemStep_nonneg _ it hnn
            rw [hstep] at this
            exact this
          · simp only [incLoop, hstep]
            have := @incItemStep_nonneg _ it hnn
            rw [hstep] at this
            exact ih this

theorem incLoop_genStock {ps : ProdMap} {its : List OrderItem} (pid : Nat) :
    ((incLoop ps its).1 pid).map Product.stock = (ps pid).map Product.stock := by
  induction its generalizing ps with
  | nil => rfl
  | cons it rest ih =>
      cases hstep : incItemStep ps it with
      | mk ps1 b =>
          have hg := @incItemStep_genStock ps it pid
          rw [hstep] at hg
          cases b
          · simp only [incLoop, hstep]
            exact hg
          · simp only [incLoop, hstep]
            rw [ih, hg]

theorem incLoop_success {ps : ProdMap} {its : List OrderItem}
    (hnn : stocksNonneg ps) : (incLoop ps its).2 = true := by
  induction its generalizing ps with
  | nil => rfl
  | cons it rest ih =>
      cases hstep : incItemStep ps it with
      | mk ps1 b =>
          have hs := @incItemStep_success _ it hnn
          rw [hstep] at hs
          cases hs
          simp only [incLoop, hstep]
          have := @incItemStep_nonneg _ it hnn
          rw [hstep] at this
          exact ih this

theorem incLoop_stockOf {ps ps' : ProdMap} {its : List OrderItem}
    (h : incLoop ps its = (ps', true)) (pid : Nat) (sz : String) :
    stockOf ps' pid sz = (stockOf ps pid sz).map (· + orderDelta its pid sz) := by
  induction its generalizing ps with
  | nil =>
      simp only [incLoop, Prod.mk.injEq] at h
      rw [← h.1]
      cases hx : stockOf ps pid sz <;> simp [orderDelta, hx]
  | cons it rest ih =>
      cases hstep : incItemStep ps it with
      | mk ps1 b =>
          cases b
          · simp [incLoop, hstep] at h
          · simp only [incLoop, hstep] at h
            rw [ih h, incItemStep_stockOf hstep pid sz, orderDelta_cons]
            by_cases hm : pid = it.product ∧ sz = it.size
            · rw [if_pos hm, if_pos ⟨hm.1.symm, hm.2.symm⟩]
              cases hx : stockOf ps pid sz with
              | none => simp [hx]
              | some a => simp [hx, add_assoc]
            · rw [if_neg hm, if_neg (fun hc => hm ⟨hc.1.symm, hc.2.symm⟩), zero_add]

theorem incLoop_avail_mono {ps : ProdMap} {its : List OrderItem} {pid : Nat} {sz : String}
    (h : availOf ps pid sz = some true) :
    availOf (incLoop ps its).1 pid sz = some true := by
  induction its generalizing ps with
  | nil => exact h
  | cons it rest ih =>
      cases hstep : incItemStep ps it with
      | mk ps1 b =>
          have hm := @incItemStep_avail_mono _ it _ _ h
          rw [hstep] at hm
          cases b
          · simp only [incLoop, hstep]
            exact hm
          · simp only [incLoop, hstep]
            exact ih hm

theorem incLoop_avail_final {ps : ProdMap} {its : List OrderItem} {pid : Nat} {sz : String}
    {v : Int} (hnn : stocksNonneg ps) (hv : stockOf ps pid sz = some v)
    (hd : 0 < orderDelta its pid sz) :
    availOf (incLoop ps its).1 pid sz = some true := by
  induction its generalizing ps v with
  | nil => simp [orderDelta] at hd
  | cons it rest ih =>
      have hsucc := @incItemStep_success ps it hnn
      have hpair : incItemStep ps it = ((incItemStep ps it).1, true) := by
        rw [← hsucc]
      have hnn1 : stocksNonneg (incItemStep ps it).1 := incItemStep_nonneg hnn
      have hstep := incItemStep_stockOf hpair pid sz
      by_cases hm : pid = it.product ∧ sz = it.size
      · rw [if_pos hm] at hstep
        rw [hv] at hstep
        by_cases hr : 0 < orderDelta rest pid sz
        · have := ih hnn1 hstep hr
          rw [incLoop, hpair]
          exact this
        · have hr0 : orderDelta rest pid sz = 0 := le_antisymm (by omega) (orderDelta_nonneg _ _ _)
          have hq : 0 < (it.quantity : Int) := by
            unfold orderDelta at hd
            rw [if_pos ⟨hm.1.symm, hm.2.symm⟩] at hd
            omega
          have hv0 : 0 ≤ v := stockOf_nonneg hnn hv
          obtain ⟨h1, h2⟩ := hm
          have hap : availOf (incItemStep ps it).1 it.product it.size = some true := by
            apply @incItemStep_avail_pos _ _ v
            · rw [← h1, ← h2]; exact hv
            · omega
            · exact hnn
          rw [incLoop, hpair]
          rw [h1, h2]
          exact incLoop_avail_mono hap
      · rw [if_neg hm] at hstep
        rw [hv] at hstep
        have hr : 0 < orderDelta rest pid sz := by
          unfold orderDelta at hd
          rw [if_neg (fun hc => hm ⟨hc.1.symm, hc.2.symm⟩)] at hd
          omega
        have := ih hnn1 hstep hr
        rw [incLoop, hpair]
        exact this


/-! ### A sample catalogue / cart used to instantiate the theorems -/

def demoProduct : Product :=
  { name := "Tee", isActive := true, price := 100, originalPrice := none,
    discount := 0, sizes := [{ size := "M", available := true, stock := 5 }],
    stock := none }

def demoProducts : ProdMap := fun k => if k = 1 then some demoProduct else none

def demoCart : Cart :=
  { items := [{ product := 1, quantity := 2, size := "M", color := "Blue",
                price := 100, originalPrice := 100, discount := 0 }],
    subtotal := 200, tax := 17, shipping := 0, discount := 0, total := 217,
    coupon := emptyCoupon }

def demoStore : Store := { products := demoProducts, orders := [], cart := demoCart }

def demoAddress : Address :=
  { firstName := "Ada", lastName := "Lovelace", street := "1 Main St",
    city := "Dhaka", state := "DH", zipCode := "1000" }

def demoCardReq : OrderRequest :=
  { shippingAddress := demoAddress, paymentMethod := "credit_card",
    mobileNumber := "", transactionNumber := "" }

def demoBkashReq : OrderRequest :=
  { shippingAddress := demoAddress, paymentMethod := "bkash",
    mobileNumber := "01700000000", transactionNumber := "TX123" }

def demoEmptyCart : Cart :=
  { items := [], subtotal := 0, tax := 0, shipping := 0, discount := 0,
    total := 0, coupon := emptyCoupon }

/-! ### C4 -/

/-- C4: after every cart mutation (addItem, updateItemQuantity,
removeItem, clear, applyCoupon, removeCoupon) followed by totals
recomputation, the stored aggregates satisfy `subtotal = Σ price ×
quantity`, `shipping = 0` iff `subtotal ≥ 50` and `5.99` otherwise,
`tax = (subtotal − discount) × 0.085`, and `total = subtotal + tax +
shipping − discount`. -/
theorem c4_totals_recomputed (m : CartMutation) (c c' : Cart)
    (h : applyMutation m c = some c') : CartInv c' := by
  cases m with
  | add pid q sz col price =>
      simp only [applyMutation, Option.some.injEq] at h
      subst h
      unfold addItem
      cases bumpFirstItem pid q sz col c.items <;> exact calculateTotals_inv _
  | updateQty idx q =>
      simp only [applyMutation] at h
      cases hi : c.items[idx]? with
      | none => simp [updateItemQuantity, hi] at h
      | some item =>
          simp only [updateItemQuantity, hi] at h
          split at h <;>
            (simp only [Option.some.injEq] at h; subst h; exact calculateTotals_inv _)
  | remove idx =>
      simp only [applyMutation, Option.some.injEq] at h
      subst h
      exact calculateTotals_inv _
  | clear =>
      simp only [applyMutation, Option.some.injEq] at h
      subst h
      exact calculateTotals_inv _
  | coupon code d t =>
      simp only [applyMutation, Option.some.injEq] at h
      subst h
      exact calculateTotals_inv _
  | uncoupon =>
      simp only [applyMutation, Option.some.injEq] at h
      subst h
      exact calculateTotals_inv _

/-- Witness for C4 at a concrete mutation. -/
theorem c4_totals_recomputed_witness :
    CartInv (addItem demoEmptyCart 1 2 "M" "Blue" 100) :=
  c4_totals_recomputed (.add 1 2 "M" "Blue" 100) demoEmptyCart _ rfl

/-! ### C5 -/

/-- With no active coupon `calculateTotals` leaves the stored discount
untouched (part_004 lines 160-169 assign it only inside the coupon
branch). -/
theorem calculateTotals_discount_inactive {c : Cart}
    (h : couponActive c.coupon = false) :
    (calculateTotals c).discount = c.discount := by
  simp [calculateTotals, h]

/-- The coupon amount computed inside `calculateTotals` (part_004
lines 163-167). -/
def couponAmount (c : Cart) : ℚ :=
  if c.coupon.ctype = "percentage" then
    itemsSubtotal c.items * c.coupon.discount.getD 0 / 100
  else
    c.coupon.discount.getD 0

def c5Base : Cart :=
  { items := [{ product := 1, quantity := 1, size := "M", color := "Blue",
                price := 100, originalPrice := 100, discount := 0 }],
    subtotal := 0, tax := 0, shipping := 0, discount := 0, total := 0,
    coupon := emptyCoupon }

/-- A cart with subtotal 100 and the 10% coupon applied. -/
def c5Cart : Cart := applyCoupon c5Base "WELCOME10" 10 "percentage"

/-- C5 counterexample: removing the coupon (the `DELETE /api/cart/coupon`
sequence `coupon = {}` + `calculateTotals`) leaves the previously
computed discount of 10 stored, instead of resetting it to 0. -/
theorem c5_stale_discount_counterexample :
    c5Cart.discount = 10 ∧
    couponActive (removeCoupon c5Cart).coupon = false ∧
    (removeCoupon c5Cart).discount = 10 ∧
    ¬ (removeCoupon c5Cart).discount = 0 := by
  have hc : c5Cart.discount = 10 := by
    simp [c5Cart, c5Base, applyCoupon, calculateTotals, couponActive, itemsSubtotal,
      min_def]
    norm_num
  have h2 : (removeCoupon c5Cart).discount = c5Cart.discount :=
    calculateTotals_discount_inactive rfl
  refine ⟨hc, rfl, by rw [h2, hc], by rw [h2, hc]; norm_num⟩

/-- C5 amended: after recomputation the discount equals
`min(couponAmount, subtotal)` whenever a coupon with a non-zero
discount is stored, but with no active coupon the discount keeps its
previous value — in particular `removeCoupon` leaves it unchanged
rather than resetting it to 0. -/
theorem c5_discount_behavior (c : Cart) :
    (couponActive c.coupon = true →
      (calculateTotals c).discount = min (couponAmount c) (itemsSubtotal c.items)) ∧
    (couponActive c.coupon = false → (calculateTotals c).discount = c.discount) ∧
    (removeCoupon c).discount = c.discount := by
  refine ⟨?_, ?_, ?_⟩
  · intro h
    simp [calculateTotals, couponAmount, h]
  · intro h
    exact calculateTotals_discount_inactive h
  · exact calculateTotals_discount_inactive rfl

/-- Witness for C5 (amended) at a concrete cart. -/
theorem c5_discount_behavior_witness :
    (calculateTotals c5Cart).discount = min (couponAmount c5Cart) (itemsSubtotal c5Cart.items) ∧
    (removeCoupon c5Cart).discount = c5Cart.discount :=
  ⟨(c5_discount_behavior c5Cart).1 (by decide), (c5_discount_behavior c5Cart).2.2⟩

/-! ### C10 -/

def c10Base : Cart :=
  { items := [{ product := 1, quantity := 1, size := "M", color := "Blue",
                price := 599 / 100, originalPrice := 599 / 100, discount := 0 }],
    subtotal := 0, tax := 0, shipping := 0, discount := 0, total := 0,
    coupon := emptyCoupon }

/-- A cart holding one 5.99 item with the fixed 5.99 coupon applied:
`discount = min(5.99, 5.99) = 5.99`, `tax = 0`, `shipping = 5.99`, so
`total = 5.99 + 0 + 5.99 − 5.99 = 5.99 = subtotal`. -/
def c10Cart : Cart := applyCoupon c10Base "FREESHIP" (599 / 100) "fixed"

/-- C10 counterexample: a cart with a coupon applied whose stored total
coincides with the summary total. -/
theorem c10_summary_counterexample :
    couponActive c10Cart.coupon = true ∧
    c10Cart.discount = 599 / 100 ∧
    (cartSummary c10Cart).total = c10Cart.total := by
  have hfx : ("fixed" : String) = "percentage" ↔ False := iff_false_intro (by decide)
  refine ⟨?_, ?_, ?_⟩
  · simp only [c10Cart, c10Base, applyCoupon, calculateTotals, couponActive]
    norm_num
  · simp [c10Cart, c10Base, applyCoupon, calculateTotals, couponActive,
      itemsSubtotal, min_def, hfx]
  · simp [cartSummary, c10Cart, c10Base, applyCoupon, calculateTotals, couponActive,
      itemsSubtotal, min_def, hfx]
    norm_num

/-- C10 amended: `GET /api/cart/summary` returns `total = Σ price ×
quantity = subtotal`, ignoring tax, shipping, coupon and discount; for
a coupon-free cart with a fresh (zero) discount and subtotal below the
free-shipping threshold the summary total always differs from the
stored total, but a coupon cart can coincide (see the
counterexample). -/
theorem c10_summary_total (c : Cart) :
    ((cartSummary c).total = itemsSubtotal c.items ∧
     (cartSummary c).total = (cartSummary c).subtotal) ∧
    (couponActive c.coupon = false → c.discount = 0 →
      itemsSubtotal c.items < 50 → 0 ≤ itemsSubtotal c.items →
      (cartSummary (calculateTotals c)).total ≠ (calculateTotals c).total) := by
  have hsummary : ∀ d : Cart, (cartSummary d).total = itemsSubtotal d.items := by
    intro d
    cases hd : d.items with
    | nil => simp [cartSummary, hd, itemsSubtotal]
    | cons x xs => simp [cartSummary, hd, itemsSubtotal]
  constructor
  · refine ⟨hsummary c, ?_⟩
    unfold cartSummary
    split <;> rfl
  · intro hca hd hlt hnn
    have h1 : (cartSummary (calculateTotals c)).total = itemsSubtotal c.items := by
      rw [hsummary]
      rfl
    have h2 : (calculateTotals c).total =
        itemsSubtotal c.items + (itemsSubtotal c.items - c.discount) * (17 / 200) +
          (599 / 100) - c.discount := by
      simp only [calculateTotals, hca, Bool.false_eq_true, if_false]
      rw [if_neg (not_le.mpr hlt)]
    rw [h1, h2, hd]
    have h3 : (0 : ℚ) ≤ itemsSubtotal c.items * (17 / 200) := by positivity
    intro heq
    nlinarith [heq]

def c10FreshCart : Cart :=
  { items := [{ product := 1, quantity := 1, size := "M", color := "Blue",
                price := 10, originalPrice := 10, discount := 0 }],
    subtotal := 0, tax := 0, shipping := 0, discount := 0, total := 0,
    coupon := emptyCoupon }

/-- Witness for C10 (amended) at a concrete coupon-free cart. -/
theorem c10_summary_total_witness :
    (cartSummary (calculateTotals c10FreshCart)).total ≠ (calculateTotals c10FreshCart).total ∧
    (cartSummary c10FreshCart).total = (cartSummary c10FreshCart).subtotal :=
  ⟨(c10_summary_total c10FreshCart).2 rfl rfl
      (by norm_num [c10FreshCart, itemsSubtotal]) (by norm_num [c10FreshCart, itemsSubtotal]),
   (c10_summary_total c10FreshCart).1.2⟩

/-! ### C2 -/

/-- C2: the mobile-banking methods accepted (and required to carry
mobileNumber/transactionNumber) by the `POST /api/orders` request
validator are missing from the Order schema's `paymentMethod` enum, so
`Order.create` throws a mongoose validation error and the handler's
catch block answers 500 — not 201 — with no order persisted, no stock
changed and the cart kept. -/
theorem c2_mobile_banking_rejected :
    requestPaymentMethods.contains "bkash" = true ∧
    orderPaymentEnum.contains "bkash" = false ∧
    reqValid demoBkashReq = true ∧
    validateItems demoStore.products demoStore.cart.items = none ∧
    checkout demoStore demoBkashReq = (.serverError, demoStore) :=
  ⟨by decide, by decide, by decide, by decide, rfl⟩

/-! ### C6 -/

def freeSizeProduct : Product :=
  { name := "Cap", isActive := true, price := 10, originalPrice := none,
    discount := 0, sizes := [], stock := some 5 }

def freeSizeCart : Cart :=
  { items := [{ product := 2, quantity := 2, size := "Free Size", color := "Default",
                price := 10, originalPrice := 10, discount := 0 }],
    subtotal := 20, tax := 2, shipping := 6, discount := 0,
    total := 28, coupon := emptyCoupon }

def freeSizeStore : Store :=
  { products := fun k => if k = 2 then some freeSizeProduct else none,
    orders := [], cart := freeSizeCart }

/-- Every exit of the POST /api/orders handler leaves the product
collection either untouched or equal to the stock-update loop's
output. -/
theorem checkout_products_cases (st : Store) (r : OrderRequest) :
    (checkout st r).2.products = st.products ∨
    (checkout st r).2.products = (decLoop st.products st.cart.items).1 := by
  unfold checkout
  split
  · exact Or.inl rfl
  · split
    · exact Or.inl rfl
    · split
      · exact Or.inl rfl
      · exact Or.inl rfl
      · dsimp only
        split
        · exact Or.inl rfl
        · split
          · rename_i heq
            exact Or.inr (congrArg Prod.fst heq).symm
          · rename_i heq
            exact Or.inr (congrArg Prod.fst heq).symm

/-- C6 (code bug): the claimed general-stock decrement never happens.
At the concrete free-size store the handler answers 500 with the store
unchanged (`Order.create` always throws, cf. C3); the stock-update loop
itself — the only code that could decrement (orders.js 301-328) —
skips the free-size line because `findIndex` on the empty `sizes` array
returns -1; and in full generality no outcome of `POST /api/orders`
ever modifies any product's general `stock` field (which the product
schema, part_006, does not even declare), while a free-size product
document is left entirely unchanged. -/
theorem c6_free_size_no_decrement :
    freeSizeProduct.sizes = [] ∧
    freeSizeProduct.stock = some 5 ∧
    checkout freeSizeStore demoCardReq = (.serverError, freeSizeStore) ∧
    decLoop freeSizeStore.products freeSizeCart.items = (freeSizeStore.products, true) ∧
    (∀ (st : Store) (r : OrderRequest) (pid : Nat),
      ((checkout st r).2.products pid).map Product.stock =
        (st.products pid).map Product.stock) ∧
    (∀ (st : Store) (r : OrderRequest) (pid : Nat) (p : Product),
      st.products pid = some p → p.sizes = [] →
      (checkout st r).2.products pid = some p) := by
  refine ⟨rfl, rfl, rfl, rfl, ?_, ?_⟩
  · intro st r pid
    rcases checkout_products_cases st r with h | h
    · rw [h]
    · rw [h]
      exact decLoop_genStock pid
  · intro st r pid p hp hfree
    rcases checkout_products_cases st r with h | h
    · rw [h]; exact hp
    · rw [h]; exact decLoop_freeSize hp hfree

/-- Witness for C6 at the concrete free-size store: the general stock
field and the whole product document survive the request unchanged. -/
theorem c6_free_size_no_decrement_witness :
    ((checkout freeSizeStore demoCardReq).2.products 2).map Product.stock =
      (freeSizeStore.products 2).map Product.stock ∧
    (checkout freeSizeStore demoCardReq).2.products 2 = some freeSizeProduct :=
  ⟨c6_free_size_no_decrement.2.2.2.2.1 freeSizeStore demoCardReq 2,
   c6_free_size_no_decrement.2.2.2.2.2 freeSizeStore demoCardReq 2 freeSizeProduct rfl rfl⟩

/-! ### C1 -/

/-- A cart line that fails checkout re-validation (orders.js 146-225):
the product is inactive, or its requested size is missing from a
non-empty size list, or the matching size's stock is below the line
quantity, or — for free-size products — the JavaScript comparison
`product.stock < quantity` holds. -/
def lineFails (ps : ProdMap) (it : CartItem) : Prop :=
  ∃ p, ps it.product = some p ∧
    (p.isActive = false ∨
     (p.sizes ≠ [] ∧ p.sizes.find? (fun s => s.size == it.size) = none) ∨
     (∃ si, p.sizes.find? (fun s => s.size == it.size) = some si ∧
        si.stock < (it.quantity : Int)) ∨
     (p.sizes = [] ∧ jsLtStock p.stock it.quantity = true))

theorem validateItem_ne_server {ps : ProdMap} {it : CartItem} {p : Product}
    (hp : ps it.product = some p) : validateItem ps it ≠ some .server := by
  intro h
  simp only [validateItem, hp] at h
  split at h
  · simp at h
  · split at h
    · split at h <;> simp at h
    · split at h
      · simp at h
      · split at h <;> simp at h

theorem lineFails_not_none {ps : ProdMap} {it : CartItem}
    (hf : lineFails ps it) : validateItem ps it ≠ none := by
  obtain ⟨p, hp, hc⟩ := hf
  intro hcontra
  simp only [validateItem, hp] at hcontra
  rcases hc with h1 | ⟨hne, hfnd⟩ | ⟨si, hfnd, hlt⟩ | ⟨hnil, hjs⟩
  · simp [h1] at hcontra
  · have hie : p.sizes.isEmpty = false := by
      cases hps : p.sizes with
      | nil => exact absurd hps hne
      | cons a l => rfl
    by_cases ha : p.isActive
    · simp [ha, hie, hfnd] at hcontra
    · simp [ha] at hcontra
  · have hne : p.sizes ≠ [] := by
      intro hh
      rw [hh] at hfnd
      simp at hfnd
    have hie : p.sizes.isEmpty = false := by
      cases hps : p.sizes with
      | nil => exact absurd hps hne
      | cons a l => rfl
    by_cases ha : p.isActive
    · simp [ha, hie, hfnd, hlt] at hcontra
    · simp [ha] at hcontra
  · have hie : p.sizes.isEmpty = true := by rw [hnil]; rfl
    by_cases ha : p.isActive
    · simp [ha, hie, hjs] at hcontra
    · simp [ha] at hcontra

theorem validateItems_none {ps : ProdMap} {its : List CartItem}
    (h : validateItems ps its = none) : ∀ it ∈ its, validateItem ps it = none := by
  induction its with
  | nil => intro it hit; cases hit
  | cons a l ih =>
      intro it hit
      cases hv : validateItem ps a with
      | none =>
          simp only [validateItems, hv] at h
          rcases List.mem_cons.mp hit with hit | hit
          · rw [hit]; exact hv
          · exact ih h it hit
      | some e => simp [validateItems, hv] at h

theorem validateItems_mem {ps : ProdMap} {its : List CartItem} {e : VErr}
    (h : validateItems ps its = some e) : ∃ it ∈ its, validateItem ps it = some e := by
  induction its with
  | nil => simp [validateItems] at h
  | cons a l ih =>
      cases hv : validateItem ps a with
      | none =>
          simp only [validateItems, hv] at h
          obtain ⟨it, hit, hval⟩ := ih h
          exact ⟨it, List.mem_cons_of_mem _ hit, hval⟩
      | some e1 =>
          simp only [validateItems, hv, Option.some.injEq] at h
          subst h
          exact ⟨a, List.mem_cons_self _ _, hv⟩

/-- C1: checkout validation is all-or-nothing.  If every cart line's
product document exists and at least one line fails re-validation, the
handler answers 400 and the whole store — products (stock), orders and
the cart with all its items and totals — is returned unchanged. -/
theorem c1_checkout_all_or_nothing (st : Store) (r : OrderRequest)
    (hprod : ∀ it ∈ st.cart.items, ∃ p, st.products it.product = some p)
    (hfail : ∃ it ∈ st.cart.items, lineFails st.products it) :
    (checkout st r).1.isBadRequest = true ∧ (checkout st r).2 = st := by
  obtain ⟨it0, hit0, hf0⟩ := hfail
  by_cases hr : reqValid r
  · have hne : st.cart.items.isEmpty = false := by
      cases hits : st.cart.items with
      | nil => rw [hits] at hit0; cases hit0
      | cons a l => rfl
    cases hv : validateItems st.products st.cart.items with
    | none =>
        exact absurd (validateItems_none hv it0 hit0) (lineFails_not_none hf0)
    | some e =>
        cases e with
        | server =>
            obtain ⟨it1, hit1, h1⟩ := validateItems_mem hv
            obtain ⟨p, hp⟩ := hprod it1 hit1
            exact absurd h1 (validateItem_ne_server hp)
        | bad m =>
            constructor
            · simp [checkout, hr, hne, hv, CheckoutResult.isBadRequest]
            · simp [checkout, hr, hne, hv]
  · constructor
    · simp [checkout, hr, CheckoutResult.isBadRequest]
    · simp [checkout, hr]

def c1Product : Product :=
  { name := "Retired Tee", isActive := false, price := 10, originalPrice := none,
    discount := 0, sizes := [{ size := "M", available := true, stock := 5 }],
    stock := none }

def c1Store : Store :=
  { products := fun k => if k = 3 then some c1Product else none,
    orders := [],
    cart := { items := [{ product := 3, quantity := 1, size := "M", color := "Blue",
                          price := 10, originalPrice := 10, discount := 0 }],
              subtotal := 10, tax := 1, shipping := 6, discount := 0, total := 17,
              coupon := emptyCoupon } }

/-- Witness for C1: a cart whose only line references a deactivated
product. -/
theorem c1_checkout_all_or_nothing_witness :
    (checkout c1Store demoCardReq).1.isBadRequest = true ∧
    (checkout c1Store demoCardReq).2 = c1Store :=
  c1_checkout_all_or_nothing c1Store demoCardReq
    (by
      intro it hit
      have h : it = { product := 3, quantity := 1, size := "M", color := "Blue",
                      price := 10, originalPrice := 10, discount := 0 } := by
        simpa [c1Store] using hit
      rw [h]
      exact ⟨c1Product, rfl⟩)
    ⟨{ product := 3, quantity := 1, size := "M", color := "Blue",
       price := 10, originalPrice := 10, discount := 0 },
     List.mem_singleton_self _, c1Product, rfl, Or.inl rfl⟩

/-! ### C9 -/

/-- Every exit of the cancel handler leaves the product collection
either untouched or equal to the restore loop's output for the
cancelled order's lines. -/
theorem cancelOrder_products_cases (st : Store) (idx : Nat) :
    (cancelOrder st idx).2.products = st.products ∨
    ∃ o, st.orders[idx]? = some o ∧
      (cancelOrder st idx).2.products = (incLoop st.products o.items).1 := by
  cases hg : st.orders[idx]? with
  | none => simp [cancelOrder, hg]
  | some o =>
      simp only [cancelOrder, hg]
      split
      · split
        · rename_i heq
          exact Or.inr ⟨o, rfl, (congrArg Prod.fst heq).symm⟩
        · rename_i heq
          exact Or.inr ⟨o, rfl, (congrArg Prod.fst heq).symm⟩
      · exact Or.inl rfl

theorem genStockNonneg_of_eq {ps ps' : ProdMap}
    (h : ∀ pid, (ps' pid).map Product.stock = (ps pid).map Product.stock)
    (h2 : genStockNonneg ps) : genStockNonneg ps' := by
  intro pid p' hp' v hv
  have he := h pid
  rw [hp'] at he
  cases hq : ps pid with
  | none => rw [hq] at he; cases he
  | some p =>
      rw [hq] at he
      simp only [Option.map_some'] at he
      have he' : p'.stock = p.stock := by simpa using he
      exact h2 pid p hq v (he' ▸ hv)

theorem applyOp_genStock (st : Store) (op : ShopOp) (pid : Nat) :
    ((applyOp st op).products pid).map Product.stock =
      (st.products pid).map Product.stock := by
  cases op with
  | checkoutOp r =>
      simp only [applyOp]
      rcases checkout_products_cases st r with h | h
      · rw [h]
      · rw [h]
        exact decLoop_genStock pid
  | cancelOp idx =>
      simp only [applyOp]
      rcases cancelOrder_products_cases st idx with h | ⟨o, _, h⟩
      · rw [h]
      · rw [h]
        exact incLoop_genStock pid

theorem applyOp_nonneg (st : Store) (op : ShopOp)
    (h : stocksNonneg st.products) : stocksNonneg (applyOp st op).products := by
  cases op with
  | checkoutOp r =>
      simp only [applyOp]
      rcases checkout_products_cases st r with he | he
      · rw [he]; exact h
      · rw [he]; exact decLoop_nonneg h
  | cancelOp idx =>
      simp only [applyOp]
      rcases cancelOrder_products_cases st idx with he | ⟨o, _, he⟩
      · rw [he]; exact h
      · rw [he]; exact incLoop_nonneg h

/-- C9: along every sequence of checkout (stock reservation) and
cancellation (stock release) operations, every per-size stock counter
and every present general stock value stay ≥ 0; moreover a persisted
checkout decrement on a size slot only happens when the slot's stock
was at least the line quantity (the schema `min: 0` save validation
rejects the write otherwise). -/
theorem c9_stock_never_negative (st : Store) (ops : List ShopOp)
    (h1 : stocksNonneg st.products) (h2 : genStockNonneg st.products) :
    (stocksNonneg (applyOps st ops).products ∧
      genStockNonneg (applyOps st ops).products) ∧
    (∀ sz q (l l' : List SizeStock) v, decSizes sz q l = .updated l' →
      sizesStock sz l = some v → (q : Int) ≤ v) := by
  constructor
  · induction ops generalizing st with
    | nil => exact ⟨h1, h2⟩
    | cons op rest ih =>
        have hg : genStockNonneg (applyOp st op).products :=
          genStockNonneg_of_eq (applyOp_genStock st op) h2
        exact ih (applyOp st op) (applyOp_nonneg st op h1) hg
  · intro sz q l l' v hupd hv
    obtain ⟨w, hw, hq, _, _⟩ := decSizes_updated hupd
    rw [hv] at hw
    cases hw
    exact hq

/-- Witness for C9: a checkout followed by a cancellation of the new
order, starting from the sample store. -/
theorem c9_stock_never_negative_witness :
    stocksNonneg (applyOps demoStore
      [ShopOp.checkoutOp demoCardReq, ShopOp.cancelOp 0]).products ∧
    genStockNonneg (applyOps demoStore
      [ShopOp.checkoutOp demoCardReq, ShopOp.cancelOp 0]).products :=
  (c9_stock_never_negative demoStore [ShopOp.checkoutOp demoCardReq, ShopOp.cancelOp 0]
    (by
      intro pid p hp s hs
      by_cases h : pid = 1
      · subst h
        simp [demoStore, demoProducts] at hp
        subst hp
        simp [demoProduct] at hs
        subst hs
        decide
      · simp [demoStore, demoProducts, h] at hp)
    (by
      intro pid p hp v hv
      by_cases h : pid = 1
      · subst h
        simp [demoStore, demoProducts] at hp
        subst hp
        simp [demoProduct] at hv
      · simp [demoStore, demoProducts, h] at hp)).1

/-! ### C3 -/

/-- C3 (code bug): in the claim's scenario — a cart whose single line
(product P, size M, quantity 2, unit price 100) references an active
product whose M slot has stock s ≥ 2, with a valid request and a
payment method the Order schema enum accepts — the per-line
re-validation passes, yet `Order.create` can never succeed:
`orderCreateValid` rejects every document `mkOrder` builds, because the
required `orderNumber` (part_005 9-12) is only generated by a
`pre('save')` hook (part_005 211-221) that mongoose runs after its
validate-before-save step.  The handler therefore answers 500 with no
order persisted, no stock changed and the cart kept — not the 201
commit the claim describes. -/
theorem c3_order_create_always_fails
    (st : Store) (r : OrderRequest) (P : Nat) (p : Product) (av : Bool)
    (s : Int) (it : CartItem)
    (hp : st.products P = some p) (hact : p.isActive = true)
    (hsz : p.sizes = [{ size := "M", available := av, stock := s }])
    (hs : 2 ≤ s) (hitems : st.cart.items = [it])
    (hP : it.product = P) (hq : it.quantity = 2) (hsize : it.size = "M")
    (hr : reqValid r = true) (hpm : r.paymentMethod ∈ orderPaymentEnum) :
    validateItems st.products st.cart.items = none ∧
    (∀ (c : Cart) (r2 : OrderRequest),
      (mkOrder c r2).orderNumber = none ∧ orderCreateValid (mkOrder c r2) = false) ∧
    checkout st r = (.serverError, st) := by
  have hnlt : ¬ (s < (2 : Int)) := by omega
  have hvi : validateItems st.products st.cart.items = none := by
    rw [hitems]
    simp [validateItems, validateItem, hP, hp, hact, hsz, hq, hsize, hnlt]
  have hocv : ∀ (c : Cart) (r2 : OrderRequest),
      (mkOrder c r2).orderNumber = none ∧ orderCreateValid (mkOrder c r2) = false := by
    intro c r2
    exact ⟨rfl, by simp [orderCreateValid, mkOrder]⟩
  refine ⟨hvi, hocv, ?_⟩
  have hne : st.cart.items.isEmpty = false := by
    rw [hitems]
    rfl
  have hocv2 : orderCreateValid (mkOrder st.cart r) = false := (hocv st.cart r).2
  simp only [checkout, hr, Bool.not_true, Bool.false_eq_true, if_false, hne, hvi,
    hocv2, Bool.not_false, if_true]

/-- Witness for C3 at the sample store: re-validation passes, yet the
order document fails the `Order.create` checks and the handler answers
500 with the store — products, orders and cart — unchanged. -/
theorem c3_order_create_always_fails_witness :
    validateItems demoStore.products demoStore.cart.items = none ∧
    orderCreateValid (mkOrder demoCart demoCardReq) = false ∧
    checkout demoStore demoCardReq = (.serverError, demoStore) := by
  have h := c3_order_create_always_fails demoStore demoCardReq 1 demoProduct true 5
    { product := 1, quantity := 2, size := "M", color := "Blue",
      price := 100, originalPrice := 100, discount := 0 }
    rfl rfl rfl (by decide) rfl rfl rfl rfl (by decide) (by decide)
  exact ⟨h.1, (h.2.1 demoCart demoCardReq).2, h.2.2⟩

/-! ### C8 -/

theorem calculateTotals_items (c : Cart) : (calculateTotals c).items = c.items := rfl

/-- C8: adding an item with the same (product, size, color) key as an
existing line merges quantities into that single line — two adds of 2
then 1 yield one line with quantity 3 — and the merged quantity is
re-validated against the size slot's stock: when it exceeds the stock,
the route fails with the message reporting the remaining headroom
`stock − existing quantity`, not the total stock. -/
theorem c8_merge_and_headroom
    (ps : ProdMap) (P : Nat) (p : Product) (s : Int) (hp : ps P = some p)
    (hact : p.isActive = true)
    (hsz : p.sizes = [{ size := "M", available := true, stock := s }])
    (hs3 : 3 ≤ s) :
    (((addItemRoute ps demoEmptyCart P 2 (some "M") (some "Blue")).getCart.bind
        (fun c1 => (addItemRoute ps c1 P 1 (some "M") (some "Blue")).getCart)).map
        Cart.items) =
      some [{ product := P, quantity := 3, size := "M", color := "Blue",
              price := p.price, originalPrice := p.originalPrice.getD p.price,
              discount := 0 }] ∧
    (∀ (e q : Nat) (c : Cart) (pr opr dq : ℚ),
      c.items = [{ product := P, quantity := e, size := "M", color := "Blue",
                   price := pr, originalPrice := opr, discount := dq }] →
      1 ≤ q → q ≤ 10 → ¬ (s < (q : Int)) → s < (e : Int) + (q : Int) →
      addItemRoute ps c P q (some "M") (some "Blue") =
        .badRequest ("Cannot add " ++ toString q ++ " more items. Only " ++
          toString (s - (e : Int)) ++ " more available in size " ++ "M")) := by
  constructor
  · have h2 : ¬ (s < (2 : Int)) := by omega
    have h1 : ¬ (s < (1 : Int)) := by omega
    have hm : ¬ (s < (2 : Int) + 1) := by omega
    have hm3 : ¬ (s < (3 : Int)) := by omega
    simp [addItemRoute, hp, hact, hsz, demoEmptyCart, h2, h1, hm, hm3,
      AddResult.getCart, calculateTotals_items, bumpFirstItem]
  · intro e q c pr opr dq hitems hq1 hq10 hnlt hover
    simp [addItemRoute, hp, hact, hsz, hitems, hq1, hq10, hnlt, hover,
      AddResult.getCart, bumpFirstItem]

def c8Cart : Cart :=
  { items := [{ product := 1, quantity := 4, size := "M", color := "Blue",
                price := 100, originalPrice := 100, discount := 0 }],
    subtotal := 400, tax := 0, shipping := 0, discount := 0, total := 400,
    coupon := emptyCoupon }

/-- Witness for C8 at the sample product (M stock 5): 2 + 1 merge into
one line of 3, and adding 2 to an existing line of 4 reports headroom
1, not the total stock 5. -/
theorem c8_merge_and_headroom_witness :
    (((addItemRoute demoProducts demoEmptyCart 1 2 (some "M") (some "Blue")).getCart.bind
        (fun c1 => (addItemRoute demoProducts c1 1 1 (some "M") (some "Blue")).getCart)).map
        Cart.items) =
      some [{ product := 1, quantity := 3, size := "M", color := "Blue",
              price := 100, originalPrice := 100, discount := 0 }] ∧
    addItemRoute demoProducts c8Cart 1 2 (some "M") (some "Blue") =
      .badRequest ("Cannot add " ++ toString (2 : Nat) ++ " more items. Only " ++
        toString ((5 : Int) - ((4 : Nat) : Int)) ++ " more available in size " ++ "M") :=
  ⟨(c8_merge_and_headroom demoProducts 1 demoProduct 5 rfl rfl rfl (by decide)).1,
   (c8_merge_and_headroom demoProducts 1 demoProduct 5 rfl rfl rfl (by decide)).2
     4 2 c8Cart 100 100 0 rfl (by decide) (by decide) (by decide) (by decide)⟩

/-! ### C7 -/

/-- Inversion of a successful checkout: a 201 means the order is the
cart snapshot, the stock-update loop ran to completion producing the
new product collection, the order was appended, and the cart was
cleared. -/
theorem checkout_created_inv {st : Store} {r : OrderRequest} {o' : Order} {st1 : Store}
    (h : checkout st r = (.created o', st1)) :
    o' = mkOrder st.cart r ∧
    decLoop st.products st.cart.items = (st1.products, true) ∧
    st1.orders = st.orders ++ [mkOrder st.cart r] ∧
    st1.cart = clearCart st.cart := by
  unfold checkout at h
  split at h
  · simp at h
  · split at h
    · simp at h
    · split at h
      · simp at h
      · simp at h
      · dsimp only at h
        split at h
        · simp at h
        · split at h
          · simp at h
          · rename_i heq
            simp only [Prod.mk.injEq, CheckoutResult.created.injEq] at h
            obtain ⟨ho, hst1⟩ := h
            subst hst1
            exact ⟨ho.symm, heq, rfl, rfl⟩

/-- C7: cancelling a `pending`/`confirmed` order succeeds, sets the
status to `cancelled`, appends exactly one timeline entry, and adds
each line's quantity back to its per-size stock (making touched slots
available again); any other status answers 400 with the whole store
unchanged; and a checkout immediately followed by cancelling the new
order restores every per-size stock counter to its pre-order level. -/
theorem c7_cancel_restores_stock (st : Store) (idx : Nat) (o : Order)
    (hget : st.orders[idx]? = some o)
    (hnn : stocksNonneg st.products) :
    ((o.status = "pending" ∨ o.status = "confirmed") →
      (cancelOrder st idx).1 = .ok ∧
      (cancelOrder st idx).2.orders[idx]? =
        some { o with status := "cancelled",
                      timeline := o.timeline ++
                        [{ status := "cancelled", note := "Cancelled by customer" }] } ∧
      (∀ pid sz v, stockOf st.products pid sz = some v →
        stockOf (cancelOrder st idx).2.products pid sz =
          some (v + orderDelta o.items pid sz)) ∧
      (∀ pid sz v, stockOf st.products pid sz = some v →
        0 < orderDelta o.items pid sz →
        availOf (cancelOrder st idx).2.products pid sz = some true)) ∧
    (¬ (o.status = "pending" ∨ o.status = "confirmed") →
      cancelOrder st idx = (.badRequest, st)) ∧
    (∀ (r : OrderRequest) (o' : Order) (st1 st2 : Store),
      checkout st r = (.created o', st1) →
      cancelOrder st1 st.orders.length = (.ok, st2) →
      ∀ pid sz, stockOf st2.products pid sz = stockOf st.products pid sz) := by
  have hlen : idx < st.orders.length := by
    rcases List.getElem?_eq_some_iff.mp hget with ⟨h, _⟩
    exact h
  refine ⟨?_, ?_, ?_⟩
  · intro hst
    rcases hloop : incLoop st.products o.items with ⟨ps1, b⟩
    have hb : b = true := by
      have hx := @incLoop_success st.products o.items hnn
      rw [hloop] at hx
      exact hx
    subst hb
    have hred : cancelOrder st idx =
        (.ok, { products := ps1,
                orders := st.orders.set idx
                  (updateStatus o "cancelled" "Cancelled by customer"),
                cart := st.cart }) := by
      simp only [cancelOrder, hget, if_pos hst, hloop]
    rw [hred]
    refine ⟨rfl, ?_, ?_, ?_⟩
    · simp only [List.getElem?_set_self hlen, updateStatus]
    · intro pid sz v hv
      have h1 := incLoop_stockOf hloop pid sz
      simp only [h1, hv, Option.map_some']
    · intro pid sz v hv hd
      have h1 := incLoop_avail_final hnn hv hd
      have h2 : (incLoop st.products o.items).1 = ps1 := congrArg Prod.fst hloop
      rw [h2] at h1
      exact h1
  · intro hst
    simp only [cancelOrder, hget]
    rw [if_neg hst]
  · intro r o' st1 st2 hco hca pid sz
    obtain ⟨ho', hdec, hord, hcart⟩ := checkout_created_inv hco
    have hidx : st1.orders[st.orders.length]? = some (mkOrder st.cart r) := by
      rw [hord]
      exact List.getElem?_concat_length _ _
    simp only [cancelOrder, hidx] at hca
    have hstatus : (mkOrder st.cart r).status = "pending" ∨
        (mkOrder st.cart r).status = "confirmed" := Or.inl rfl
    rw [if_pos hstatus] at hca
    split at hca
    · rename_i heq2
      simp only [Prod.mk.injEq] at hca
      obtain ⟨-, hst2⟩ := hca
      subst hst2
      have h1 := incLoop_stockOf heq2 pid sz
      have hpair : decLoop st.products st.cart.items = (st1.products, true) := hdec
      have h2 := decLoop_stockOf hpair pid sz
      rw [h1, h2]
      have hdelta : orderDelta (mkOrder st.cart r).items pid sz =
          cartDelta st.cart.items pid sz := orderDelta_mkOrder st.cart.items pid sz
      rw [hdelta]
      cases hx : stockOf st.products pid sz with
      | none => rfl
      | some a =>
          simp only [Option.map_some']
          congr 1
          omega
    · simp at hca

def c7Order : Order :=
  { orderNumber := some "ORD2501010001",
    items := [{ product := 1, quantity := 2, size := "M", color := "Blue", price := 100 }],
    subtotal := 200, tax := 17, shipping := 0, discount := 0, total := 217,
    status := "pending", paymentMethod := "credit_card", timeline := [] }

def c7Store : Store :=
  { products := fun k =>
      if k = 1 then some { demoProduct with sizes := [{ size := "M", available := true, stock := 3 }] }
      else none,
    orders := [c7Order], cart := demoEmptyCart }

/-- Witness for C7: cancelling a pending 2-unit order restores the M
stock from 3 back to 5 and re-marks the slot available. -/
theorem c7_cancel_restores_stock_witness :
    (cancelOrder c7Store 0).1 = .ok ∧
    (cancelOrder c7Store 0).2.orders[0]? =
      some { c7Order with status := "cancelled",
                          timeline := [{ status := "cancelled", note := "Cancelled by customer" }] } ∧
    stockOf (cancelOrder c7Store 0).2.products 1 "M" = some 5 ∧
    availOf (cancelOrder c7Store 0).2.products 1 "M" = some true := by
  have hnn : stocksNonneg c7Store.products := by
    intro pid p hp s hs
    by_cases h : pid = 1
    · subst h
      simp [c7Store] at hp
      subst hp
      simp [demoProduct] at hs
      subst hs
      decide
    · simp [c7Store, h] at hp
  have h := (c7_cancel_restores_stock c7Store 0 c7Order rfl hnn).1 (Or.inl rfl)
  exact ⟨h.1, h.2.1, h.2.2.1 1 "M" 3 rfl, h.2.2.2 1 "M" 3 rfl (by decide)⟩

end Shop
